import Mathlib

/-!
# A shallow embedding of the chess rule engine (`ChessLogic.ts`)

This file models the chess move generator and rules engine of the
repository: the board/piece/move data model from `Chess.ts` and the
methods of the `ChessLogic` class (`isSquareUnderAttack`, `isInCheck`,
`wouldBeInCheck`, the per-piece pseudo-legal move generators,
`getValidMoves`, `makeMove` with `handleCastle`/`handleEnPassant`,
`isCheckmate`, `isStalemate`, `isDrawByInsufficientMaterial`, and
`moveToAlgebraic`), together with proofs and refutations of the
specified properties.

Modelling conventions:
* An 8×8 JavaScript array board is modelled by its lookup function
  `Int → Int → Option ChessPiece`; every read in the source goes through
  `getSq`, which returns `none` outside `[0,7]²` (an out-of-bounds read
  of a JS array yields `undefined`).  Writes are pointwise updates.
* The TS fields `from`/`to` of `ChessMove` are renamed `fromSq`/`toSq`
  (`from` is a Lean keyword).
* The optional TS field `hasMoved?: boolean` is a `Bool` (absent =
  `false`, as `undefined` is falsy in every test the source performs).
* `JSON.parse(JSON.stringify(board))` deep copies are the identity on
  values and are therefore dropped.
-/

inductive Color : Type
  | white
  | black
deriving DecidableEq, Repr

def Color.opposite : Color → Color
  | .white => .black
  | .black => .white

inductive PieceType : Type
  | pawn
  | knight
  | bishop
  | rook
  | queen
  | king
deriving DecidableEq, Repr

structure ChessPiece : Type where
  type : PieceType
  color : Color
  hasMoved : Bool := false
deriving DecidableEq, Repr

structure ChessSquare : Type where
  row : Int
  col : Int
deriving DecidableEq, Repr

inductive CastleSide : Type
  | kingside
  | queenside
deriving DecidableEq, Repr

structure ChessMove : Type where
  fromSq : ChessSquare
  toSq : ChessSquare
  promotion : Option PieceType := none
  isCapture : Bool := false
  isCheck : Bool := false
  isCheckmate : Bool := false
  isCastle : Option CastleSide := none
  isEnPassant : Bool := false
deriving DecidableEq, Repr

/-- `ChessBoard = Array<Array<ChessPiece | null>>`, modelled by its lookup
function.  Only the restriction to `[0,7]²` is ever observed (see `getSq`). -/
def Board : Type := Int → Int → Option ChessPiece

/-- Reading `board[r][c]`: JS yields `undefined` outside the 8×8 grid. -/
def getSq (b : Board) (r c : Int) : Option ChessPiece :=
  if 0 ≤ r ∧ r < 8 ∧ 0 ≤ c ∧ c < 8 then b r c else none

/-- Writing `board[r][c] = v` (all writes performed by the engine are at
in-range coordinates for the moves the claims quantify over). -/
def setSq (b : Board) (r c : Int) (v : Option ChessPiece) : Board :=
  fun x y => if x = r ∧ y = c then v else b x y

def inBounds (r c : Int) : Bool :=
  decide (0 ≤ r) && decide (r < 8) && decide (0 ≤ c) && decide (c < 8)

/-- `board[r][c]` holds a piece of the given type and color
(`piece && piece.type === t && piece.color === col`). -/
def pieceIs (b : Board) (r c : Int) (t : PieceType) (col : Color) : Bool :=
  match getSq b r c with
  | some p => p.type == t && p.color == col
  | none => false

/-- The eight knight offsets, in source order. -/
def knightOffsets : List (Int × Int) :=
  [(-2, -1), (-2, 1), (-1, -2), (-1, 2), (1, -2), (1, 2), (2, -1), (2, 1)]

/-- The eight compass directions, in source order. -/
def allDirections : List (Int × Int) :=
  [(-1, -1), (-1, 0), (-1, 1), (0, -1), (0, 1), (1, -1), (1, 0), (1, 1)]

/-- The sliding-attack walk of `isSquareUnderAttack`: step outward in
direction `(dr, dc)` until leaving the board or hitting a piece; a piece of
`byColor` whose movement matches the direction is an attacker, any other
piece stops the search.  A ray meets at most 8 in-range cells, so fuel 8 is
exact. -/
def rayGo (b : Board) (byColor : Color) (dr dc : Int) : Nat → Int → Int → Bool
  | 0, _, _ => false
  | fuel + 1, nr, nc =>
    if inBounds nr nc then
      match getSq b nr nc with
      | some p =>
        if p.color == byColor then
          let isDiagonal := dr != 0 && dc != 0
          let isOrthogonal := dr == 0 || dc == 0
          (isDiagonal && (p.type == .bishop || p.type == .queen)) ||
            (isOrthogonal && (p.type == .rook || p.type == .queen))
        else false
      | none => rayGo b byColor dr dc fuel (nr + dr) (nc + dc)
    else false

/-- The pawn section of `isSquareUnderAttack`: look for a pawn of `byColor`
at `(row - pawnDirection, col ∓ 1)` where `pawnDirection` is `1` for white
and `-1` for black. -/
def pawnAttackCheck (b : Board) (row col : Int) (byColor : Color) : Bool :=
  let pawnDirection : Int := if byColor == .white then 1 else -1
  if decide (0 ≤ row - pawnDirection) && decide (row - pawnDirection < 8) then
    (decide (0 ≤ col - 1) && pieceIs b (row - pawnDirection) (col - 1) .pawn byColor) ||
      (decide (col + 1 < 8) && pieceIs b (row - pawnDirection) (col + 1) .pawn byColor)
  else false

/-- The knight section of `isSquareUnderAttack`. -/
def knightAttackCheck (b : Board) (row col : Int) (byColor : Color) : Bool :=
  knightOffsets.any fun d =>
    inBounds (row + d.1) (col + d.2) && pieceIs b (row + d.1) (col + d.2) .knight byColor

/-- The sliding section of `isSquareUnderAttack`. -/
def slideAttackCheck (b : Board) (row col : Int) (byColor : Color) : Bool :=
  allDirections.any fun d => rayGo b byColor d.1 d.2 8 (row + d.1) (col + d.2)

/-- The adjacent-king section of `isSquareUnderAttack`. -/
def kingAdjAttackCheck (b : Board) (row col : Int) (byColor : Color) : Bool :=
  allDirections.any fun d =>
    inBounds (row + d.1) (col + d.2) && pieceIs b (row + d.1) (col + d.2) .king byColor

/-- `isSquareUnderAttack(board, row, col, byColor)`: the four sections of
the source, checked in order and unioned (early `return true` ≡ `||`). -/
def isSquareUnderAttack (b : Board) (row col : Int) (byColor : Color) : Bool :=
  pawnAttackCheck b row col byColor || knightAttackCheck b row col byColor ||
    slideAttackCheck b row col byColor || kingAdjAttackCheck b row col byColor

/-- The 64 squares in the row-major order of the source's nested loops. -/
def squaresRowMajor : List ChessSquare :=
  (List.range 8).flatMap fun r => (List.range 8).map fun c => ⟨(r : Int), (c : Int)⟩

/-- The king scan of `isInCheck`: first king of `color` in row-major order
(the source breaks out of both loops at the first hit). -/
def findKing (b : Board) (color : Color) : Option ChessSquare :=
  squaresRowMajor.find? fun s => pieceIs b s.row s.col .king color

/-- `isInCheck(board, color)`: king absent ⇒ `false` (defensive fallback). -/
def isInCheck (b : Board) (color : Color) : Bool :=
  match findKing b color with
  | none => false
  | some s => isSquareUnderAttack b s.row s.col color.opposite

/-- `wouldBeInCheck(board, move, color)`: relocate the piece (plus the rook
for a castle — at the hardcoded back rank of `color` — and the captured pawn
for en passant) on a copy and test `isInCheck`. -/
def wouldBeInCheck (b : Board) (move : ChessMove) (color : Color) : Bool :=
  let piece := getSq b move.fromSq.row move.fromSq.col
  let t1 := setSq b move.toSq.row move.toSq.col piece
  let t2 := setSq t1 move.fromSq.row move.fromSq.col none
  let t3 :=
    match move.isCastle with
    | some .kingside =>
      let rookRow : Int := if color == .white then 7 else 0
      setSq (setSq t2 rookRow 5 (getSq t2 rookRow 7)) rookRow 7 none
    | some .queenside =>
      let rookRow : Int := if color == .white then 7 else 0
      setSq (setSq t2 rookRow 3 (getSq t2 rookRow 0)) rookRow 0 none
    | none => t2
  let t4 :=
    if move.isEnPassant then setSq t3 move.fromSq.row move.toSq.col none else t3
  isInCheck t4 color

/-- `getPawnMoves`: single advance, double advance from the start rank,
diagonal captures; far-rank moves are tagged with a default queen promotion.
(The en-passant branch of the source is an empty stub.) -/
def getPawnMoves (b : Board) (row col : Int) (piece : ChessPiece) : List ChessMove :=
  let direction : Int := if piece.color == .white then -1 else 1
  let startRow : Int := if piece.color == .white then 6 else 1
  let forward :=
    if decide (0 ≤ row + direction) && decide (row + direction < 8) &&
        (getSq b (row + direction) col == none) then
      [({ fromSq := ⟨row, col⟩, toSq := ⟨row + direction, col⟩ } : ChessMove)] ++
        (if decide (row = startRow) && (getSq b (row + 2 * direction) col == none) then
          [({ fromSq := ⟨row, col⟩, toSq := ⟨row + 2 * direction, col⟩ } : ChessMove)]
        else [])
    else []
  let captures := ([-1, 1] : List Int).flatMap fun dc =>
    if decide (0 ≤ col + dc) && decide (col + dc < 8) then
      match getSq b (row + direction) (col + dc) with
      | some target =>
        if target.color != piece.color then
          [({ fromSq := ⟨row, col⟩, toSq := ⟨row + direction, col + dc⟩,
              isCapture := true } : ChessMove)]
        else []
      | none => []
    else []
  let moves := forward ++ captures
  let promotionRow : Int := if piece.color == .white then 0 else 7
  moves.map fun m =>
    if m.toSq.row = promotionRow then { m with promotion := some .queen } else m

/-- `getKnightMoves`: the eight offsets, destination empty or enemy. -/
def getKnightMoves (b : Board) (row col : Int) (piece : ChessPiece) : List ChessMove :=
  knightOffsets.flatMap fun d =>
    let newRow := row + d.1
    let newCol := col + d.2
    if inBounds newRow newCol then
      match getSq b newRow newCol with
      | some target =>
        if target.color != piece.color then
          [({ fromSq := ⟨row, col⟩, toSq := ⟨newRow, newCol⟩, isCapture := true } : ChessMove)]
        else []
      | none =>
        [({ fromSq := ⟨row, col⟩, toSq := ⟨newRow, newCol⟩, isCapture := false } : ChessMove)]
    else []

/-- One direction of `getSlidingMoves`: moves through empty squares, a
single capture on the first enemy piece, stop on any piece. -/
def slideRay (b : Board) (piece : ChessPiece) (row col dr dc : Int) :
    Nat → Int → Int → List ChessMove
  | 0, _, _ => []
  | fuel + 1, nr, nc =>
    if inBounds nr nc then
      match getSq b nr nc with
      | none =>
        ({ fromSq := ⟨row, col⟩, toSq := ⟨nr, nc⟩ } : ChessMove) ::
          slideRay b piece row col dr dc fuel (nr + dr) (nc + dc)
      | some target =>
        if target.color != piece.color then
          [({ fromSq := ⟨row, col⟩, toSq := ⟨nr, nc⟩, isCapture := true } : ChessMove)]
        else []
    else []

def getSlidingMoves (b : Board) (row col : Int) (piece : ChessPiece)
    (directions : List (Int × Int)) : List ChessMove :=
  directions.flatMap fun d => slideRay b piece row col d.1 d.2 8 (row + d.1) (col + d.2)

def getBishopMoves (b : Board) (row col : Int) (piece : ChessPiece) : List ChessMove :=
  getSlidingMoves b row col piece [(-1, -1), (-1, 1), (1, -1), (1, 1)]

def getRookMoves (b : Board) (row col : Int) (piece : ChessPiece) : List ChessMove :=
  getSlidingMoves b row col piece [(-1, 0), (1, 0), (0, -1), (0, 1)]

def getQueenMoves (b : Board) (row col : Int) (piece : ChessPiece) : List ChessMove :=
  getSlidingMoves b row col piece
    [(-1, -1), (-1, 0), (-1, 1), (0, -1), (0, 1), (1, -1), (1, 0), (1, 1)]

/-- The destination test of a regular king step and of a castle transit
square: place the king there on a copy, clear the origin, and ask whether
the square is attacked (`getKingMoves` does this inline to avoid recursing
through `wouldBeInCheck`). -/
def kingStepAttacked (b : Board) (row col : Int) (piece : ChessPiece)
    (nr nc : Int) : Bool :=
  isSquareUnderAttack (setSq (setSq b nr nc (some piece)) row col none) nr nc
    piece.color.opposite

/-- The regular (non-castle) part of `getKingMoves`. -/
def kingRegularMoves (b : Board) (row col : Int) (piece : ChessPiece) : List ChessMove :=
  allDirections.flatMap fun d =>
    let newRow := row + d.1
    let newCol := col + d.2
    if inBounds newRow newCol then
      let allowed :=
        match getSq b newRow newCol with
        | some target => target.color != piece.color
        | none => true
      if allowed && !kingStepAttacked b row col piece newRow newCol then
        [({ fromSq := ⟨row, col⟩, toSq := ⟨newRow, newCol⟩ } : ChessMove)]
      else []
    else []

/-- The kingside-castle part of `getKingMoves` (reached with `col = 4`):
rook on column 7 unmoved, columns 5 and 6 empty, and the two transit squares
pass the placed-king attack test (the source loop runs `c = 5, 6` and
transit-tests both, as `c ≤ col + 2` always holds there). -/
def kingsideCastleMoves (b : Board) (row col : Int) (piece : ChessPiece) : List ChessMove :=
  match getSq b row 7 with
  | some rook =>
    if rook.type == .rook && rook.color == piece.color && !rook.hasMoved then
      if (getSq b row 5 == none) && !kingStepAttacked b row col piece row 5 &&
          (getSq b row 6 == none) && !kingStepAttacked b row col piece row 6 then
        [({ fromSq := ⟨row, col⟩, toSq := ⟨row, col + 2⟩,
            isCastle := some .kingside } : ChessMove)]
      else []
    else []
  | none => []

/-- The queenside-castle part of `getKingMoves` (reached with `col = 4`):
rook on column 0 unmoved, columns 1, 2 and 3 empty, and the transit squares
3 and 2 pass the placed-king attack test (the source loop runs `c = 3, 2, 1`
and transit-tests `c ≥ col - 2`, i.e. 3 and 2). -/
def queensideCastleMoves (b : Board) (row col : Int) (piece : ChessPiece) : List ChessMove :=
  match getSq b row 0 with
  | some rook =>
    if rook.type == .rook && rook.color == piece.color && !rook.hasMoved then
      if (getSq b row 3 == none) && !kingStepAttacked b row col piece row 3 &&
          (getSq b row 2 == none) && !kingStepAttacked b row col piece row 2 &&
          (getSq b row 1 == none) then
        [({ fromSq := ⟨row, col⟩, toSq := ⟨row, col - 2⟩,
            isCastle := some .queenside } : ChessMove)]
      else []
    else []
  | none => []

/-- `getKingMoves`: the eight adjacent squares (with the inline attack
test), plus castling when the king is unmoved and not in check. -/
def getKingMoves (b : Board) (row col : Int) (piece : ChessPiece) : List ChessMove :=
  kingRegularMoves b row col piece ++
    (if !piece.hasMoved && !isInCheck b piece.color then
      (if col == 4 then kingsideCastleMoves b row col piece else []) ++
        (if col == 4 then queensideCastleMoves b row col piece else [])
    else [])

/-- The `switch (piece.type)` dispatch of `getValidMoves`. -/
def pseudoMoves (b : Board) (row col : Int) (piece : ChessPiece) : List ChessMove :=
  match piece.type with
  | .pawn => getPawnMoves b row col piece
  | .knight => getKnightMoves b row col piece
  | .bishop => getBishopMoves b row col piece
  | .rook => getRookMoves b row col piece
  | .queen => getQueenMoves b row col piece
  | .king => getKingMoves b row col piece

/-- `getValidMoves(board, row, col)`: dispatch on the piece type, then
filter out the moves that would leave the mover's own king in check. -/
def getValidMoves (b : Board) (row col : Int) : List ChessMove :=
  match getSq b row col with
  | none => []
  | some piece =>
    (pseudoMoves b row col piece).filter fun m => !wouldBeInCheck b m piece.color

/-- Whether some piece of `color` has a nonempty `getValidMoves` list — the
common scan of `isCheckmate` and `isStalemate`. -/
def hasAnyMove (b : Board) (color : Color) : Bool :=
  squaresRowMajor.any fun s =>
    match getSq b s.row s.col with
    | some p => p.color == color && !(getValidMoves b s.row s.col).isEmpty
    | none => false

/-- `isCheckmate(board, color)`. -/
def isCheckmate (b : Board) (color : Color) : Bool :=
  isInCheck b color && !hasAnyMove b color

/-- `isStalemate(board, color)`. -/
def isStalemate (b : Board) (color : Color) : Bool :=
  !isInCheck b color && !hasAnyMove b color

/-- The per-color piece collection of `isDrawByInsufficientMaterial`, in
row-major scan order. -/
def piecesOf (b : Board) (color : Color) : List ChessPiece :=
  squaresRowMajor.filterMap fun s =>
    match getSq b s.row s.col with
    | some p => if p.color == color then some p else none
    | none => none

/-- `isDrawByInsufficientMaterial(board)`. -/
def isDrawByInsufficientMaterial (b : Board) : Bool :=
  let whitePieces := piecesOf b .white
  let blackPieces := piecesOf b .black
  if whitePieces.length == 1 && blackPieces.length == 1 then
    true
  else if (whitePieces.length == 2 && blackPieces.length == 1) ||
      (whitePieces.length == 1 && blackPieces.length == 2) then
    let morePieces :=
      if whitePieces.length > blackPieces.length then whitePieces else blackPieces
    match morePieces.find? fun p => p.type != .king with
    | some second => second.type == .bishop || second.type == .knight
    | none => false
  else if whitePieces.length == 2 && blackPieces.length == 2 then
    (whitePieces.find? fun p => p.type == .bishop).isSome &&
      (blackPieces.find? fun p => p.type == .bishop).isSome
  else
    false

/-- `handleCastle(board, move)`: relocate the rook of the castle side on the
row of the move's origin, marking it moved.  (If the corner square is empty
the source spreads `null` into `{hasMoved: true}`, a typeless object that no
later test can match; the model clears the target square in that unreachable
corner case.) -/
def handleCastle (b : Board) (move : ChessMove) : Board :=
  let row := move.fromSq.row
  let rookCol : Int := if move.isCastle == some .kingside then 7 else 0
  let newRookCol : Int :=
    if move.isCastle == some .kingside then move.toSq.col - 1 else move.toSq.col + 1
  let rook := getSq b row rookCol
  setSq (setSq b row newRookCol (rook.map fun rk => { rk with hasMoved := true }))
    row rookCol none

/-- `handleEnPassant(board, move)`: clear the captured pawn's square. -/
def handleEnPassant (b : Board) (move : ChessMove) : Board :=
  setSq b move.fromSq.row move.toSq.col none

/-- `MoveResult`. -/
structure MoveResult : Type where
  valid : Bool
  error : Option String := none
  move : Option ChessMove := none
  newBoard : Option Board := none
  inCheck : Option Color := none
  isCheckmate : Option Bool := none
  isStalemate : Option Bool := none
  isDraw : Option Bool := none

/-- `makeMove(board, move)`. -/
def makeMove (b : Board) (move : ChessMove) : MoveResult :=
  match getSq b move.fromSq.row move.fromSq.col with
  | none => { valid := false, error := some "No piece at the source position" }
  | some piece =>
    let nb1 := setSq b move.toSq.row move.toSq.col (some { piece with hasMoved := true })
    let nb2 := setSq nb1 move.fromSq.row move.fromSq.col none
    let nb3 := if move.isCastle.isSome then handleCastle nb2 move else nb2
    let nb4 := if move.isEnPassant then handleEnPassant nb3 move else nb3
    let nb5 :=
      match move.promotion with
      | some pt =>
        setSq nb4 move.toSq.row move.toSq.col
          (some { type := pt, color := piece.color, hasMoved := true })
      | none => nb4
    let opponentColor := piece.color.opposite
    let nowInCheck := isInCheck nb5 opponentColor
    let mate := nowInCheck && isCheckmate nb5 opponentColor
    let stale := !nowInCheck && isStalemate nb5 opponentColor
    let draw := isDrawByInsufficientMaterial nb5
    { valid := true
      move := some move
      newBoard := some nb5
      inCheck := if nowInCheck then some opponentColor else none
      isCheckmate := some mate
      isStalemate := some stale
      isDraw := some draw }

/-- `'string'[i]` in JS: the one-character string, or `""` out of range
(the claims only use in-range indices). -/
def strCharAt (s : String) (i : Int) : String :=
  if 0 ≤ i then
    match s.data.get? i.toNat with
    | some ch => String.mk [ch]
    | none => ""
  else ""

/-- The TS string value of a piece type (`move.promotion` is such a string). -/
def pieceTypeName : PieceType → String
  | .pawn => "pawn"
  | .knight => "knight"
  | .bishop => "bishop"
  | .rook => "rook"
  | .queen => "queen"
  | .king => "king"

/-- `s.charAt(0).toUpperCase()` in JS: the uppercased first character, or
`""` on the empty string. -/
def upperFirst (s : String) : String :=
  match s.data with
  | [] => ""
  | ch :: _ => String.mk [ch.toUpper]

/-- `moveToAlgebraic(move)`. -/
def moveToAlgebraic (move : ChessMove) : String :=
  let files := "abcdefgh"
  let ranks := "87654321"
  let fromSquare := strCharAt files move.fromSq.col ++ strCharAt ranks move.fromSq.row
  let toSquare := strCharAt files move.toSq.col ++ strCharAt ranks move.toSq.row
  match move.isCastle with
  | some .kingside => "O-O"
  | some .queenside => "O-O-O"
  | none =>
    let s1 := fromSquare ++ toSquare
    let s2 := s1 ++
      (match move.promotion with
      | some pt => "=" ++ upperFirst (pieceTypeName pt)
      | none => "")
    let s3 := s2 ++ (if move.isCheck then "+" else "")
    s3 ++ (if move.isCheckmate then "#" else "")

/-- Build a board from row-major lists (the shape of the initial-position
literal in the source). -/
def boardOf (rows : List (List (Option ChessPiece))) : Board :=
  fun r c =>
    if 0 ≤ r ∧ r < 8 ∧ 0 ≤ c ∧ c < 8 then
      ((rows.get? r.toNat).bind fun l => l.get? c.toNat).join
    else none

def pc (t : PieceType) (c : Color) : Option ChessPiece := some ⟨t, c, false⟩

/-- The standard initial position, as the caller constructs it. -/
def initialBoard : Board :=
  boardOf
    [[pc .rook .black, pc .knight .black, pc .bishop .black, pc .queen .black,
      pc .king .black, pc .bishop .black, pc .knight .black, pc .rook .black],
     [pc .pawn .black, pc .pawn .black, pc .pawn .black, pc .pawn .black,
      pc .pawn .black, pc .pawn .black, pc .pawn .black, pc .pawn .black],
     [none, none, none, none, none, none, none, none],
     [none, none, none, none, none, none, none, none],
     [none, none, none, none, none, none, none, none],
     [none, none, none, none, none, none, none, none],
     [pc .pawn .white, pc .pawn .white, pc .pawn .white, pc .pawn .white,
      pc .pawn .white, pc .pawn .white, pc .pawn .white, pc .pawn .white],
     [pc .rook .white, pc .knight .white, pc .bishop .white, pc .queen .white,
      pc .king .white, pc .bishop .white, pc .knight .white, pc .rook .white]]

/-! ## Concrete boards used by individual claims -/

/-- The empty board. -/
def emptyBoard : Board := fun _ _ => none

/-- A single white pawn on `(3, 2)` — diagonally *behind* the square
`(2, 3)` with respect to white's advance toward decreasing rows, i.e. a
real-chess attacker of `(2, 3)`. -/
def c2PawnBehindWhite : Board := fun r c =>
  if r = 3 ∧ c = 2 then some ⟨.pawn, .white, false⟩ else none

/-- A single black pawn on `(1, 2)` — diagonally behind `(2, 3)` with
respect to black's advance toward increasing rows, i.e. a real-chess
attacker of `(2, 3)`. -/
def c2PawnBehindBlack : Board := fun r c =>
  if r = 1 ∧ c = 2 then some ⟨.pawn, .black, false⟩ else none

/-- A single white pawn on `(1, 2)` — diagonally in *front* of `(2, 3)`,
which attacks nothing on `(2, 3)` in real chess. -/
def c2PawnFrontWhite : Board := fun r c =>
  if r = 1 ∧ c = 2 then some ⟨.pawn, .white, false⟩ else none

/-- Two white kings (on `(2,4)` and `(0,7)`), an unmoved white rook on
`(2,7)` and a black rook on `(7,7)`.  `getValidMoves` offers the kingside
castle from `(2,4)`, but `makeMove` moves the rook on row 2 while the
`wouldBeInCheck` filter moved the one on row 7 — applying the move opens
the h-file and leaves the first-scanned white king on `(0,7)` in check. -/
def twoKingBoard : Board := fun r c =>
  if r = 2 ∧ c = 4 then some ⟨.king, .white, false⟩
  else if r = 0 ∧ c = 7 then some ⟨.king, .white, false⟩
  else if r = 2 ∧ c = 7 then some ⟨.rook, .white, false⟩
  else if r = 7 ∧ c = 7 then some ⟨.rook, .black, false⟩
  else none

/-- The off-rank kingside castle move offered on `twoKingBoard`. -/
def offRankCastleMove : ChessMove :=
  { fromSq := ⟨2, 4⟩, toSq := ⟨2, 6⟩, isCastle := some .kingside }

/-- A lone white pawn about to reach the far rank. -/
def c7PawnBoard : Board := fun r c =>
  if r = 1 ∧ c = 4 then some ⟨.pawn, .white, false⟩ else none

/-- A far-rank pawn move that carries no promotion field. -/
def c7BarePush : ChessMove := { fromSq := ⟨1, 4⟩, toSq := ⟨0, 4⟩ }

/-- White king on e1 and white rook on h1, both unmoved; nothing else.
Satisfies every kingside-castling precondition for white. -/
def castleReadyBoard : Board := fun r c =>
  if r = 7 ∧ c = 4 then some ⟨.king, .white, false⟩
  else if r = 7 ∧ c = 7 then some ⟨.rook, .white, false⟩
  else none

/-- King and one knight against a lone king. -/
def kingKnightVsKingBoard : Board := fun r c =>
  if r = 7 ∧ c = 4 then some ⟨.king, .white, false⟩
  else if r = 5 ∧ c = 5 then some ⟨.knight, .white, false⟩
  else if r = 0 ∧ c = 4 then some ⟨.king, .black, false⟩
  else none

/-- A plain white pawn single advance from the initial position. -/
def e2e4Move : ChessMove := { fromSq := ⟨6, 4⟩, toSq := ⟨4, 4⟩ }

/-! ## Basic lemmas about board reads and writes -/

theorem getSq_eq_some_bounds {b : Board} {r c : Int} {p : ChessPiece}
    (h : getSq b r c = some p) : 0 ≤ r ∧ r < 8 ∧ 0 ≤ c ∧ c < 8 := by
  by_contra hcon
  simp only [getSq, if_neg hcon] at h
  exact Option.noConfusion h

theorem getSq_setSq (b : Board) (r c : Int) (v : Option ChessPiece) (x y : Int) :
    getSq (setSq b r c v) x y =
      if x = r ∧ y = c then
        (if 0 ≤ x ∧ x < 8 ∧ 0 ≤ y ∧ y < 8 then v else none)
      else getSq b x y := by
  unfold getSq setSq
  by_cases hb : 0 ≤ x ∧ x < 8 ∧ 0 ≤ y ∧ y < 8 <;>
    by_cases hc : x = r ∧ y = c <;> simp [hb, hc]

theorem getSq_setSq_same {r c : Int} (b : Board) (v : Option ChessPiece)
    (hb : 0 ≤ r ∧ r < 8 ∧ 0 ≤ c ∧ c < 8) : getSq (setSq b r c v) r c = v := by
  rw [getSq_setSq]
  simp [hb]

theorem getSq_setSq_other {r c x y : Int} (b : Board) (v : Option ChessPiece)
    (h : ¬(x = r ∧ y = c)) : getSq (setSq b r c v) x y = getSq b x y := by
  rw [getSq_setSq]
  simp [h]

theorem Color.opposite_ne (c : Color) : c.opposite ≠ c := by
  cases c <;> simp [Color.opposite]

theorem Color.ne_opposite (c : Color) : c ≠ c.opposite := by
  cases c <;> simp [Color.opposite]

theorem mem_squaresRowMajor {s : ChessSquare} :
    s ∈ squaresRowMajor ↔ 0 ≤ s.row ∧ s.row < 8 ∧ 0 ≤ s.col ∧ s.col < 8 := by
  obtain ⟨r, c⟩ := s
  constructor
  · intro h
    fin_cases h <;> norm_num
  · rintro ⟨h1, h2, h3, h4⟩
    interval_cases r <;> interval_cases c <;> decide

/-! ## Views and congruence lemmas

`isSquareUnderAttack` reads, at each square, only whether the square is
occupied and — when the occupant belongs to the attacking color — the
occupant's type; `findKing` reads only where the kings of one color stand.
The views below capture exactly that information, so two boards that agree
on a view agree on the corresponding computation. -/

/-- `none` = empty square, `some none` = piece of the other color (a mere
blocker), `some (some t)` = piece of `byColor` with type `t`. -/
def cellView (b : Board) (byColor : Color) (r c : Int) : Option (Option PieceType) :=
  (getSq b r c).map fun p => if p.color = byColor then some p.type else none

/-- Whether a king of `color` stands on `(r, c)`. -/
def kingView (b : Board) (color : Color) (r c : Int) : Bool :=
  pieceIs b r c .king color

theorem pieceIs_eq_cellView (b : Board) (r c : Int) (t : PieceType) (col : Color) :
    pieceIs b r c t col = (cellView b col r c == some (some t)) := by
  unfold pieceIs cellView
  cases h : getSq b r c with
  | none => simp
  | some p =>
    by_cases hc : p.color = col
    · simp [hc]
    · simp only [hc, if_neg, if_false]
      simp [hc]

theorem rayGo_congr_region {b1 b2 : Board} {byColor : Color} {dr dc : Int}
    (P : Int → Int → Prop)
    (hstep : ∀ r c, P r c → P (r + dr) (c + dc))
    (hag : ∀ r c, P r c → cellView b1 byColor r c = cellView b2 byColor r c) :
    ∀ (fuel : Nat) (nr nc : Int), P nr nc →
      rayGo b1 byColor dr dc fuel nr nc = rayGo b2 byColor dr dc fuel nr nc := by
  intro fuel
  induction fuel with
  | zero => intro nr nc _; rfl
  | succ n ih =>
    intro nr nc hP
    have hv := hag nr nc hP
    by_cases hib : inBounds nr nc = true
    · simp only [rayGo, hib, if_true]
      cases hb1 : getSq b1 nr nc with
      | none =>
        cases hb2 : getSq b2 nr nc with
        | none => exact ih (nr + dr) (nc + dc) (hstep nr nc hP)
        | some p2 => simp [cellView, hb1, hb2] at hv
      | some p1 =>
        cases hb2 : getSq b2 nr nc with
        | none => simp [cellView, hb1, hb2] at hv
        | some p2 =>
          have hv2 : (if p1.color = byColor then some p1.type else none) =
              (if p2.color = byColor then some p2.type else none) := by
            simpa [cellView, hb1, hb2] using hv
          by_cases c1 : p1.color = byColor <;> by_cases c2 : p2.color = byColor <;>
            simp only [c1, c2, if_pos, if_neg, if_true, if_false, reduceCtorEq,
              Option.some_inj] at hv2 <;>
            simp [c1, c2, hv2]
    · simp only [rayGo]
      rw [if_neg hib, if_neg hib]

/-- The west walk is fuel-insensitive once the fuel covers the cells left of
the start column. -/
theorem rayGo_fuel_west {b : Board} {byColor : Color} {row : Int} :
    ∀ (f1 f2 : Nat) (nc : Int), nc < (f1 : Int) → nc < (f2 : Int) →
      rayGo b byColor 0 (-1) f1 row nc = rayGo b byColor 0 (-1) f2 row nc := by
  intro f1
  induction f1 with
  | zero =>
    intro f2 nc h1 h2
    cases f2 with
    | zero => rfl
    | succ m =>
      have hoob : inBounds row nc = false := by
        simp only [inBounds]
        simp only [Int.natCast_zero] at h1
        simp [show ¬(0 ≤ nc) by omega]
      simp [rayGo, hoob]
  | succ n ih =>
    intro f2 nc h1 h2
    cases f2 with
    | zero =>
      have hoob : inBounds row nc = false := by
        simp only [inBounds]
        simp only [Int.natCast_zero] at h2
        simp [show ¬(0 ≤ nc) by omega]
      simp [rayGo, hoob]
    | succ m =>
      simp only [rayGo]
      by_cases hib : inBounds row nc = true
      · rw [if_pos hib, if_pos hib]
        cases hq : getSq b row nc with
        | some p => rfl
        | none =>
          simp only [add_zero]
          exact ih m (nc + -1) (by push_cast at h1 ⊢; omega) (by push_cast at h2 ⊢; omega)
      · rw [if_neg hib, if_neg hib]

/-- The east walk is fuel-insensitive once the fuel covers the cells from
the start column to the board edge. -/
theorem rayGo_fuel_east {b : Board} {byColor : Color} {row : Int} :
    ∀ (f1 f2 : Nat) (nc : Int), (8 : Int) ≤ nc + f1 → (8 : Int) ≤ nc + f2 →
      rayGo b byColor 0 1 f1 row nc = rayGo b byColor 0 1 f2 row nc := by
  intro f1
  induction f1 with
  | zero =>
    intro f2 nc h1 h2
    cases f2 with
    | zero => rfl
    | succ m =>
      have hoob : inBounds row nc = false := by
        simp only [inBounds]
        simp only [Int.natCast_zero, Int.add_zero] at h1
        simp [show ¬(nc < 8) by omega]
      simp [rayGo, hoob]
  | succ n ih =>
    intro f2 nc h1 h2
    cases f2 with
    | zero =>
      have hoob : inBounds row nc = false := by
        simp only [inBounds]
        simp only [Int.natCast_zero, Int.add_zero] at h2
        simp [show ¬(nc < 8) by omega]
      simp [rayGo, hoob]
    | succ m =>
      simp only [rayGo]
      by_cases hib : inBounds row nc = true
      · rw [if_pos hib, if_pos hib]
        cases hq : getSq b row nc with
        | some p => rfl
        | none =>
          simp only [add_zero]
          exact ih m (nc + 1) (by push_cast at h1 ⊢; omega) (by push_cast at h2 ⊢; omega)
      · rw [if_neg hib, if_neg hib]

/-! ## Decomposing an attack verdict into its four sections -/

theorem attack_false_iff (b : Board) (row col : Int) (byColor : Color) :
    isSquareUnderAttack b row col byColor = false ↔
      pawnAttackCheck b row col byColor = false ∧
        knightAttackCheck b row col byColor = false ∧
        slideAttackCheck b row col byColor = false ∧
        kingAdjAttackCheck b row col byColor = false := by
  simp [isSquareUnderAttack, and_assoc]

theorem slide_false_iff (b : Board) (row col : Int) (byColor : Color) :
    slideAttackCheck b row col byColor = false ↔
      ∀ d ∈ allDirections, rayGo b byColor d.1 d.2 8 (row + d.1) (col + d.2) = false := by
  simp [slideAttackCheck, List.any_eq_false]

theorem kingAdj_false_iff (b : Board) (row col : Int) (byColor : Color) :
    kingAdjAttackCheck b row col byColor = false ↔
      ∀ d ∈ allDirections,
        (inBounds (row + d.1) (col + d.2) &&
          pieceIs b (row + d.1) (col + d.2) .king byColor) = false := by
  simp only [kingAdjAttackCheck, List.any_eq_false]
  constructor <;> intro h d hd <;> simpa using h d hd

theorem knight_false_iff (b : Board) (row col : Int) (byColor : Color) :
    knightAttackCheck b row col byColor = false ↔
      ∀ d ∈ knightOffsets,
        (inBounds (row + d.1) (col + d.2) &&
          pieceIs b (row + d.1) (col + d.2) .knight byColor) = false := by
  simp only [knightAttackCheck, List.any_eq_false]
  constructor <;> intro h d hd <;> simpa using h d hd

/-! ## Congruence of the attack sections under board agreement -/

theorem pawnAttackCheck_congr_offrow {b1 b2 : Board} {row col : Int} {byColor : Color}
    (h : ∀ x y, x ≠ row → cellView b1 byColor x y = cellView b2 byColor x y) :
    pawnAttackCheck b1 row col byColor = pawnAttackCheck b2 row col byColor := by
  unfold pawnAttackCheck
  set pd : Int := if byColor == Color.white then 1 else -1 with hpd
  have hzero : pd ≠ 0 := by cases byColor <;> simp [hpd]
  have hne : row - pd ≠ row := by omega
  simp only [pieceIs_eq_cellView]
  rw [h (row - pd) (col - 1) hne, h (row - pd) (col + 1) hne]

theorem knightAttackCheck_congr_offrow {b1 b2 : Board} {row col : Int} {byColor : Color}
    (h : ∀ x y, x ≠ row → cellView b1 byColor x y = cellView b2 byColor x y) :
    knightAttackCheck b1 row col byColor = knightAttackCheck b2 row col byColor := by
  unfold knightAttackCheck knightOffsets
  simp only [List.any_cons, List.any_nil, pieceIs_eq_cellView]
  rw [h (row + (-2 : Int)) (col + (-1 : Int)) (by omega),
    h (row + (-2 : Int)) (col + (1 : Int)) (by omega),
    h (row + (-1 : Int)) (col + (-2 : Int)) (by omega),
    h (row + (-1 : Int)) (col + (2 : Int)) (by omega),
    h (row + (1 : Int)) (col + (-2 : Int)) (by omega),
    h (row + (1 : Int)) (col + (2 : Int)) (by omega),
    h (row + (2 : Int)) (col + (-1 : Int)) (by omega),
    h (row + (2 : Int)) (col + (1 : Int)) (by omega)]

theorem kingAdjAttackCheck_congr_row {b1 b2 : Board} {row col : Int} {byColor : Color}
    (h : ∀ x y, x ≠ row → cellView b1 byColor x y = cellView b2 byColor x y)
    (hl : pieceIs b1 row (col + -1) .king byColor = pieceIs b2 row (col + -1) .king byColor)
    (hr : pieceIs b1 row (col + 1) .king byColor = pieceIs b2 row (col + 1) .king byColor) :
    kingAdjAttackCheck b1 row col byColor = kingAdjAttackCheck b2 row col byColor := by
  unfold kingAdjAttackCheck allDirections
  simp only [List.any_cons, List.any_nil, add_zero]
  rw [hl, hr]
  simp only [pieceIs_eq_cellView]
  rw [h (row + (-1 : Int)) (col + (-1 : Int)) (by omega),
    h (row + (-1 : Int)) col (by omega),
    h (row + (-1 : Int)) (col + (1 : Int)) (by omega),
    h (row + (1 : Int)) (col + (-1 : Int)) (by omega),
    h (row + (1 : Int)) col (by omega),
    h (row + (1 : Int)) (col + (1 : Int)) (by omega)]

theorem list_any_congr {α : Type} {p q : α → Bool} :
    ∀ {l : List α}, (∀ a ∈ l, p a = q a) → l.any p = l.any q := by
  intro l
  induction l with
  | nil => intro _; rfl
  | cons a t ih =>
    intro h
    simp only [List.any_cons, h a (by simp)]
    rw [ih fun x hx => h x (by simp [hx])]

theorem list_find?_congr {α : Type} {p q : α → Bool} :
    ∀ {l : List α}, (∀ a ∈ l, p a = q a) → l.find? p = l.find? q := by
  intro l
  induction l with
  | nil => intro _; rfl
  | cons a t ih =>
    intro h
    rw [List.find?_cons, List.find?_cons, h a (by simp)]
    cases q a
    · exact ih fun x hx => h x (by simp [hx])
    · rfl

theorem isSquareUnderAttack_congr {b1 b2 : Board} {byColor : Color} (row col : Int)
    (h : ∀ x y, cellView b1 byColor x y = cellView b2 byColor x y) :
    isSquareUnderAttack b1 row col byColor = isSquareUnderAttack b2 row col byColor := by
  unfold isSquareUnderAttack
  rw [pawnAttackCheck_congr_offrow fun x y _ => h x y,
    knightAttackCheck_congr_offrow fun x y _ => h x y,
    kingAdjAttackCheck_congr_row (fun x y _ => h x y)
      (by simp only [pieceIs_eq_cellView]; rw [h])
      (by simp only [pieceIs_eq_cellView]; rw [h])]
  have hslide : slideAttackCheck b1 row col byColor = slideAttackCheck b2 row col byColor := by
    unfold slideAttackCheck
    refine list_any_congr fun d _ => ?_
    exact rayGo_congr_region (fun _ _ => True) (fun _ _ _ => trivial)
      (fun x y _ => h x y) 8 (row + d.1) (col + d.2) trivial
  rw [hslide]

theorem findKing_congr {b1 b2 : Board} {color : Color}
    (h : ∀ r c, kingView b1 color r c = kingView b2 color r c) :
    findKing b1 color = findKing b2 color :=
  list_find?_congr fun s _ => h s.row s.col

theorem isInCheck_congr {b1 b2 : Board} {color : Color}
    (hk : ∀ r c, kingView b1 color r c = kingView b2 color r c)
    (ha : ∀ r c, cellView b1 color.opposite r c = cellView b2 color.opposite r c) :
    isInCheck b1 color = isInCheck b2 color := by
  unfold isInCheck
  rw [findKing_congr hk]
  cases findKing b2 color with
  | none => rfl
  | some s => exact isSquareUnderAttack_congr s.row s.col ha

/-! ## Locating a unique king -/

/-- How many squares hold a king of `color`. -/
def kingCount (b : Board) (color : Color) : Nat :=
  (squaresRowMajor.filter fun s => pieceIs b s.row s.col .king color).length

theorem find?_eq_some_of_unique {α : Type} {p : α → Bool} {x : α} :
    ∀ {l : List α}, x ∈ l → p x = true → (∀ y ∈ l, p y = true → y = x) →
      l.find? p = some x := by
  intro l
  induction l with
  | nil => intro hx; exact absurd hx (List.not_mem_nil x)
  | cons a t ih =>
    intro hx hpx huniq
    rw [List.find?_cons]
    cases hpa : p a with
    | true => rw [huniq a (by simp) hpa]
    | false =>
      have hxt : x ∈ t := by
        rcases List.mem_cons.1 hx with rfl | hxt
        · rw [hpx] at hpa; exact Bool.noConfusion hpa
        · exact hxt
      exact ih hxt hpx fun y hy hpy => huniq y (by simp [hy]) hpy

theorem pieceIs_bounds {b : Board} {r c : Int} {t : PieceType} {col : Color}
    (h : pieceIs b r c t col = true) : 0 ≤ r ∧ r < 8 ∧ 0 ≤ c ∧ c < 8 := by
  unfold pieceIs at h
  cases hq : getSq b r c with
  | none => rw [hq] at h; exact Bool.noConfusion h
  | some p => exact getSq_eq_some_bounds hq

theorem kingCount_unique {b : Board} {color : Color} {r0 c0 : Int}
    (h1 : kingCount b color = 1) (h0 : pieceIs b r0 c0 .king color = true) :
    ∀ x y, pieceIs b x y .king color = true → x = r0 ∧ y = c0 := by
  intro x y hxy
  have hb0 := pieceIs_bounds h0
  have hbxy := pieceIs_bounds hxy
  have hmem1 : (⟨r0, c0⟩ : ChessSquare) ∈
      squaresRowMajor.filter fun s => pieceIs b s.row s.col .king color := by
    rw [List.mem_filter]
    exact ⟨mem_squaresRowMajor.2 hb0, h0⟩
  have hmem2 : (⟨x, y⟩ : ChessSquare) ∈
      squaresRowMajor.filter fun s => pieceIs b s.row s.col .king color := by
    rw [List.mem_filter]
    exact ⟨mem_squaresRowMajor.2 hbxy, hxy⟩
  obtain ⟨a, ha⟩ := List.length_eq_one.1 h1
  rw [ha, List.mem_singleton] at hmem1 hmem2
  have : (⟨x, y⟩ : ChessSquare) = (⟨r0, c0⟩ : ChessSquare) := hmem2.trans hmem1.symm
  injection this with h1 h2
  exact ⟨h1, h2⟩

theorem findKing_of_unique {b : Board} {color : Color} {r0 c0 : Int}
    (h1 : kingCount b color = 1) (h0 : pieceIs b r0 c0 .king color = true) :
    findKing b color = some ⟨r0, c0⟩ := by
  refine find?_eq_some_of_unique (mem_squaresRowMajor.2 (pieceIs_bounds h0)) h0 ?_
  intro y _ hpy
  obtain ⟨hr, hc⟩ := kingCount_unique h1 h0 y.row y.col hpy
  cases y
  simp_all

theorem kingCount_pos {b : Board} {color : Color} {r c : Int}
    (h : pieceIs b r c .king color = true) : 1 ≤ kingCount b color := by
  have hmem : (⟨r, c⟩ : ChessSquare) ∈
      squaresRowMajor.filter fun s => pieceIs b s.row s.col .king color := by
    rw [List.mem_filter]
    exact ⟨mem_squaresRowMajor.2 (pieceIs_bounds h), h⟩
  exact List.length_pos.2 (List.ne_nil_of_mem hmem)

/-! ## Shape of the moves each generator can produce -/

theorem mem_getKnightMoves_shape {b : Board} {row col : Int} {piece : ChessPiece}
    {m : ChessMove} (h : m ∈ getKnightMoves b row col piece) :
    m.fromSq = ⟨row, col⟩ ∧ m.isCastle = none ∧ m.isEnPassant = false ∧
      m.promotion = none := by
  unfold getKnightMoves knightOffsets at h
  simp only [List.flatMap_cons, List.flatMap_nil, List.append_nil, List.mem_append] at h
  rcases h with h | h | h | h | h | h | h | h <;>
    · split at h <;> [skip; simp at h]
      rename_i hib
      cases hq : getSq b _ _ <;> rw [hq] at h <;> simp only [] at h
      · rcases List.mem_singleton.1 h with rfl
        exact ⟨rfl, rfl, rfl, rfl⟩
      · split at h
        · rcases List.mem_singleton.1 h with rfl
          exact ⟨rfl, rfl, rfl, rfl⟩
        · simp at h

theorem mem_slideRay_shape {b : Board} {piece : ChessPiece} {row col dr dc : Int}
    {m : ChessMove} :
    ∀ {fuel : Nat} {nr nc : Int}, m ∈ slideRay b piece row col dr dc fuel nr nc →
      m.fromSq = ⟨row, col⟩ ∧ m.isCastle = none ∧ m.isEnPassant = false ∧
        m.promotion = none := by
  intro fuel
  induction fuel with
  | zero => intro nr nc h; simp [slideRay] at h
  | succ n ih =>
    intro nr nc h
    unfold slideRay at h
    split at h
    · cases hq : getSq b nr nc <;> rw [hq] at h <;> simp only [] at h
      · rcases List.mem_cons.1 h with rfl | h
        · exact ⟨rfl, rfl, rfl, rfl⟩
        · exact ih h
      · split at h
        · rcases List.mem_singleton.1 h with rfl
          exact ⟨rfl, rfl, rfl, rfl⟩
        · simp at h
    · simp at h

theorem mem_getSlidingMoves_shape {b : Board} {row col : Int} {piece : ChessPiece}
    {dirs : List (Int × Int)} {m : ChessMove} (h : m ∈ getSlidingMoves b row col piece dirs) :
    m.fromSq = ⟨row, col⟩ ∧ m.isCastle = none ∧ m.isEnPassant = false ∧
      m.promotion = none := by
  unfold getSlidingMoves at h
  rw [List.mem_flatMap] at h
  obtain ⟨d, _, hm⟩ := h
  exact mem_slideRay_shape hm

theorem mem_of_ite_nil {α : Type} {c : Prop} [Decidable c] {l : List α} {a : α}
    (h : a ∈ if c then l else []) : a ∈ l := by
  split at h
  · exact h
  · exact absurd h (List.not_mem_nil a)

theorem mem_getPawnMoves_shape {b : Board} {row col : Int} {piece : ChessPiece}
    {m : ChessMove} (h : m ∈ getPawnMoves b row col piece) :
    m.fromSq = ⟨row, col⟩ ∧ m.isCastle = none ∧ m.isEnPassant = false ∧
      m.toSq.row ≠ row ∧
      m.promotion = (if m.toSq.row = (if piece.color == .white then (0 : Int) else 7)
        then some .queen else none) := by
  unfold getPawnMoves at h
  set dir : Int := if piece.color == Color.white then -1 else 1 with hdir
  have hdz : dir ≠ 0 := by cases hc : piece.color == Color.white <;> simp [hdir, hc]
  rw [List.mem_map] at h
  obtain ⟨m0, hm0, rfl⟩ := h
  have base : m0.fromSq = ⟨row, col⟩ ∧ m0.isCastle = none ∧ m0.isEnPassant = false ∧
      m0.toSq.row ≠ row ∧ m0.promotion = none := by
    rw [List.mem_append] at hm0
    rcases hm0 with hm0 | hm0
    · replace hm0 := mem_of_ite_nil hm0
      rw [List.mem_append] at hm0
      rcases hm0 with hm0 | hm0
      · rw [List.mem_singleton] at hm0
        subst hm0
        exact ⟨rfl, rfl, rfl, by simp only []; omega, rfl⟩
      · replace hm0 := mem_of_ite_nil hm0
        rw [List.mem_singleton] at hm0
        subst hm0
        exact ⟨rfl, rfl, rfl, by simp only []; omega, rfl⟩
    · simp only [List.flatMap_cons, List.flatMap_nil, List.append_nil,
        List.mem_append] at hm0
      rcases hm0 with hm0 | hm0
      · replace hm0 := mem_of_ite_nil hm0
        cases hq : getSq b (row + dir) (col + -1) <;> rw [hq] at hm0 <;>
          simp only [] at hm0
        · exact absurd hm0 (List.not_mem_nil m0)
        · replace hm0 := mem_of_ite_nil hm0
          rw [List.mem_singleton] at hm0
          subst hm0
          exact ⟨rfl, rfl, rfl, by simp only []; omega, rfl⟩
      · replace hm0 := mem_of_ite_nil hm0
        cases hq : getSq b (row + dir) (col + 1) <;> rw [hq] at hm0 <;>
          simp only [] at hm0
        · exact absurd hm0 (List.not_mem_nil m0)
        · replace hm0 := mem_of_ite_nil hm0
          rw [List.mem_singleton] at hm0
          subst hm0
          exact ⟨rfl, rfl, rfl, by simp only []; omega, rfl⟩
  obtain ⟨hfrom, hcastle, hep, hto, hpromo⟩ := base
  by_cases hrow : m0.toSq.row = (if piece.color == Color.white then (0 : Int) else 7)
  · rw [if_pos hrow]
    refine ⟨hfrom, hcastle, hep, hto, ?_⟩
    simp only []
    rw [if_pos hrow]
  · rw [if_neg hrow]
    exact ⟨hfrom, hcastle, hep, hto, by rw [hpromo]; rw [if_neg hrow]⟩

theorem mem_kingRegularMoves_shape {b : Board} {row col : Int} {piece : ChessPiece}
    {m : ChessMove} (h : m ∈ kingRegularMoves b row col piece) :
    m.fromSq = ⟨row, col⟩ ∧ m.isCastle = none ∧ m.isEnPassant = false ∧
      m.promotion = none := by
  unfold kingRegularMoves allDirections at h
  simp only [List.flatMap_cons, List.flatMap_nil, List.append_nil, List.mem_append] at h
  rcases h with h | h | h | h | h | h | h | h <;>
    · replace h := mem_of_ite_nil h
      replace h := mem_of_ite_nil h
      rw [List.mem_singleton] at h
      subst h
      exact ⟨rfl, rfl, rfl, rfl⟩

theorem mem_kingsideCastleMoves_inv {b : Board} {row col : Int} {piece : ChessPiece}
    {m : ChessMove} (h : m ∈ kingsideCastleMoves b row col piece) :
    m = { fromSq := ⟨row, col⟩, toSq := ⟨row, col + 2⟩, isCastle := some .kingside } ∧
      ∃ rook, getSq b row 7 = some rook ∧ rook.type = .rook ∧
        rook.color = piece.color ∧ rook.hasMoved = false ∧
        getSq b row 5 = none ∧ getSq b row 6 = none ∧
        kingStepAttacked b row col piece row 5 = false ∧
        kingStepAttacked b row col piece row 6 = false := by
  unfold kingsideCastleMoves at h
  cases hq : getSq b row 7 <;> rw [hq] at h <;> simp only [] at h
  · exact absurd h (List.not_mem_nil m)
  · rename_i rook
    by_cases hflags : (rook.type == PieceType.rook && rook.color == piece.color &&
        !rook.hasMoved) = true
    · rw [if_pos hflags] at h
      by_cases hcond : ((getSq b row 5 == none) && !kingStepAttacked b row col piece row 5 &&
          (getSq b row 6 == none) && !kingStepAttacked b row col piece row 6) = true
      · rw [if_pos hcond] at h
        rw [List.mem_singleton] at h
        subst h
        simp only [Bool.and_eq_true, beq_iff_eq, Bool.not_eq_true', Option.isNone_iff_eq_none]
          at hflags hcond
        obtain ⟨⟨ht, hc⟩, hmv⟩ := hflags
        obtain ⟨⟨⟨h5, ha5⟩, h6⟩, ha6⟩ := hcond
        exact ⟨rfl, rook, rfl, ht, hc, hmv, h5, h6, ha5, ha6⟩
      · rw [if_neg hcond] at h
        exact absurd h (List.not_mem_nil m)
    · rw [if_neg hflags] at h
      exact absurd h (List.not_mem_nil m)

theorem mem_queensideCastleMoves_inv {b : Board} {row col : Int} {piece : ChessPiece}
    {m : ChessMove} (h : m ∈ queensideCastleMoves b row col piece) :
    m = { fromSq := ⟨row, col⟩, toSq := ⟨row, col - 2⟩, isCastle := some .queenside } ∧
      ∃ rook, getSq b row 0 = some rook ∧ rook.type = .rook ∧
        rook.color = piece.color ∧ rook.hasMoved = false ∧
        getSq b row 3 = none ∧ getSq b row 2 = none ∧ getSq b row 1 = none ∧
        kingStepAttacked b row col piece row 3 = false ∧
        kingStepAttacked b row col piece row 2 = false := by
  unfold queensideCastleMoves at h
  cases hq : getSq b row 0 <;> rw [hq] at h <;> simp only [] at h
  · exact absurd h (List.not_mem_nil m)
  · rename_i rook
    by_cases hflags : (rook.type == PieceType.rook && rook.color == piece.color &&
        !rook.hasMoved) = true
    · rw [if_pos hflags] at h
      by_cases hcond : ((getSq b row 3 == none) && !kingStepAttacked b row col piece row 3 &&
          (getSq b row 2 == none) && !kingStepAttacked b row col piece row 2 &&
          (getSq b row 1 == none)) = true
      · rw [if_pos hcond] at h
        rw [List.mem_singleton] at h
        subst h
        simp only [Bool.and_eq_true, beq_iff_eq, Bool.not_eq_true', Option.isNone_iff_eq_none]
          at hflags hcond
        obtain ⟨⟨ht, hc⟩, hmv⟩ := hflags
        obtain ⟨⟨⟨⟨h3, ha3⟩, h2⟩, ha2⟩, h1⟩ := hcond
        exact ⟨rfl, rook, rfl, ht, hc, hmv, h3, h2, h1, ha3, ha2⟩
      · rw [if_neg hcond] at h
        exact absurd h (List.not_mem_nil m)
    · rw [if_neg hflags] at h
      exact absurd h (List.not_mem_nil m)

theorem mem_getKingMoves_cases {b : Board} {row col : Int} {piece : ChessPiece}
    {m : ChessMove} (h : m ∈ getKingMoves b row col piece) :
    m ∈ kingRegularMoves b row col piece ∨
      (piece.hasMoved = false ∧ isInCheck b piece.color = false ∧ col = 4 ∧
        (m ∈ kingsideCastleMoves b row col piece ∨
          m ∈ queensideCastleMoves b row col piece)) := by
  unfold getKingMoves at h
  rw [List.mem_append] at h
  rcases h with h | h
  · exact Or.inl h
  · right
    by_cases hguard : (!piece.hasMoved && !isInCheck b piece.color) = true
    · rw [if_pos hguard] at h
      simp only [Bool.and_eq_true, Bool.not_eq_true'] at hguard
      refine ⟨hguard.1, hguard.2, ?_⟩
      rw [List.mem_append] at h
      rcases h with h | h
      · by_cases hcol : (col == (4 : Int)) = true
        · rw [if_pos hcol] at h
          exact ⟨beq_iff_eq.1 hcol, Or.inl h⟩
        · rw [if_neg hcol] at h
          exact absurd h (List.not_mem_nil m)
      · by_cases hcol : (col == (4 : Int)) = true
        · rw [if_pos hcol] at h
          exact ⟨beq_iff_eq.1 hcol, Or.inr h⟩
        · rw [if_neg hcol] at h
          exact absurd h (List.not_mem_nil m)
    · rw [if_neg hguard] at h
      exact absurd h (List.not_mem_nil m)

theorem rayGo_succ (b : Board) (byColor : Color) (dr dc : Int) (fuel : Nat) (nr nc : Int) :
    rayGo b byColor dr dc (fuel + 1) nr nc =
      if inBounds nr nc = true then
        match getSq b nr nc with
        | some p =>
          if (p.color == byColor) = true then
            ((dr != 0 && dc != 0) && (p.type == .bishop || p.type == .queen)) ||
              ((dr == 0 || dc == 0) && (p.type == .rook || p.type == .queen))
          else false
        | none => rayGo b byColor dr dc fuel (nr + dr) (nc + dc)
      else false := rfl

theorem Color.beq_opposite (c : Color) : (c == c.opposite) = false := by
  cases c <;> rfl

theorem Color.opposite_beq (c : Color) : (c.opposite == c) = false := by
  cases c <;> rfl

/-- After a kingside castle is applied by `makeMove` from `(row, 4)`, the
king's destination `(row, 6)` is no better attacked than it was on the
transit test board `getKingMoves` already checked: the rook moving from
`(row, 7)` to `(row, 5)` only blocks the west ray and vacates the edge
square of the east ray. -/
theorem castle_result_safe_kingside {b : Board} {row : Int} {piece rook kp rp : ChessPiece}
    (hrow : 0 ≤ row ∧ row < 8)
    (hrook7 : getSq b row 7 = some rook)
    (hrookc : rook.color = piece.color)
    (hrpc : rp.color = piece.color)
    (h5 : getSq b row 5 = none)
    (hatt : isSquareUnderAttack
        (setSq (setSq b row 6 (some piece)) row 4 none) row 6 piece.color.opposite = false) :
    isSquareUnderAttack
      (setSq (setSq
          (setSq (setSq b row 6 (some kp)) row 4 none)
          row 5 (some rp)) row 7 none)
      row 6 piece.color.opposite = false := by
  set opp := piece.color.opposite with hopp
  set B2 := setSq (setSq b row 6 (some piece)) row 4 none with hB2
  set B1 := setSq (setSq
      (setSq (setSq b row 6 (some kp)) row 4 none)
      row 5 (some rp)) row 7 none with hB1
  have hbnd : (0 ≤ row ∧ row < 8 ∧ 0 ≤ (5 : Int) ∧ (5 : Int) < 8) := by omega
  have hB1_5 : getSq B1 row 5 = some rp := by
    rw [hB1, getSq_setSq_other _ _ (by simp), getSq_setSq_same _ _ (by omega)]
  have hB1_7 : getSq B1 row 7 = none := by
    rw [hB1, getSq_setSq_same _ _ (by omega)]
  have hB1_off : ∀ x y, x ≠ row → getSq B1 x y = getSq b x y := by
    intro x y hx
    rw [hB1, getSq_setSq_other _ _ (by tauto), getSq_setSq_other _ _ (by tauto),
      getSq_setSq_other _ _ (by tauto), getSq_setSq_other _ _ (by tauto)]
  have hB2_off : ∀ x y, x ≠ row → getSq B2 x y = getSq b x y := by
    intro x y hx
    rw [hB2, getSq_setSq_other _ _ (by tauto), getSq_setSq_other _ _ (by tauto)]
  have hoffrow : ∀ x y, x ≠ row → cellView B1 opp x y = cellView B2 opp x y := by
    intro x y hx
    unfold cellView
    rw [hB1_off x y hx, hB2_off x y hx]
  rw [attack_false_iff] at hatt ⊢
  obtain ⟨hpawn, hknight, hslide, hkadj⟩ := hatt
  refine ⟨?_, ?_, ?_, ?_⟩
  · rw [pawnAttackCheck_congr_offrow hoffrow]
    exact hpawn
  · rw [knightAttackCheck_congr_offrow hoffrow]
    exact hknight
  · rw [slide_false_iff] at hslide ⊢
    intro d hd
    have hd8 : d = (-1, -1) ∨ d = (-1, 0) ∨ d = (-1, 1) ∨ d = (0, -1) ∨ d = (0, 1) ∨
        d = (1, -1) ∨ d = (1, 0) ∨ d = (1, 1) := by
      simpa [allDirections] using hd
    have hup : ∀ dc : Int, rayGo B1 opp (-1) dc 8 (row + (-1)) (6 + dc) =
        rayGo B2 opp (-1) dc 8 (row + (-1)) (6 + dc) := by
      intro dc
      exact rayGo_congr_region (fun x _ => x < row) (fun r c h => by omega)
        (fun x y h => hoffrow x y (by omega)) 8 (row + (-1)) (6 + dc) (by omega)
    have hdown : ∀ dc : Int, rayGo B1 opp 1 dc 8 (row + 1) (6 + dc) =
        rayGo B2 opp 1 dc 8 (row + 1) (6 + dc) := by
      intro dc
      exact rayGo_congr_region (fun x _ => row < x) (fun r c h => by omega)
        (fun x y h => hoffrow x y (by omega)) 8 (row + 1) (6 + dc) (by omega)
    rcases hd8 with rfl | rfl | rfl | rfl | rfl | rfl | rfl | rfl
    · rw [hup]; exact hslide (-1, -1) (by simp [allDirections])
    · rw [hup]; exact hslide (-1, 0) (by simp [allDirections])
    · rw [hup]; exact hslide (-1, 1) (by simp [allDirections])
    · -- west ray: blocked at (row, 5) by the freshly moved friendly rook
      show rayGo B1 opp 0 (-1) 8 (row + 0) (6 + -1) = false
      rw [add_zero, show (6 : Int) + -1 = 5 by norm_num]
      rw [show (8 : Nat) = 7 + 1 from rfl, rayGo_succ]
      rw [if_pos (by simp only [inBounds]; simp; omega)]
      rw [hB1_5]
      simp only []
      rw [hrpc, hopp, Color.beq_opposite]
      simp
    · -- east ray: `(row, 7)` is now empty, then off the board
      show rayGo B1 opp 0 1 8 (row + 0) (6 + 1) = false
      rw [add_zero, show (6 : Int) + 1 = 7 by norm_num]
      rw [show (8 : Nat) = 7 + 1 from rfl, rayGo_succ]
      rw [if_pos (by simp only [inBounds]; simp; omega)]
      rw [hB1_7]
      simp only []
      rw [show (7 : Int) + 1 = 8 by norm_num]
      rw [show (7 : Nat) = 6 + 1 from rfl, rayGo_succ]
      rw [if_neg (by simp [inBounds])]
    · rw [hdown]; exact hslide (1, -1) (by simp [allDirections])
    · rw [hdown]; exact hslide (1, 0) (by simp [allDirections])
    · rw [hdown]; exact hslide (1, 1) (by simp [allDirections])
  · rw [kingAdjAttackCheck_congr_row hoffrow ?_ ?_]
    · exact hkadj
    · -- (row, 5): friendly-colored piece vs empty — neither is an opposing king
      unfold pieceIs
      rw [show (6 : Int) + -1 = 5 by norm_num, hB1_5]
      rw [show getSq B2 row 5 = none by
        rw [hB2, getSq_setSq_other _ _ (by omega), getSq_setSq_other _ _ (by omega)]; exact h5]
      simp [hrpc, hopp, Color.beq_opposite]
    · -- (row, 7): empty vs the friendly rook
      unfold pieceIs
      rw [show (6 : Int) + 1 = 7 by norm_num, hB1_7]
      rw [show getSq B2 row 7 = some rook by
        rw [hB2, getSq_setSq_other _ _ (by omega), getSq_setSq_other _ _ (by omega)]; exact hrook7]
      simp [hrookc, hopp, Color.beq_opposite]

/-- Queenside analogue of `castle_result_safe_kingside`: the rook moving
from `(row, 0)` to `(row, 3)` blocks the east ray, and the west ray runs
over the empty `(row, 1)` onto the vacated corner and off the board. -/
theorem castle_result_safe_queenside {b : Board} {row : Int} {piece rook kp rp : ChessPiece}
    (hrow : 0 ≤ row ∧ row < 8)
    (hrookc : rook.color = piece.color)
    (hrpc : rp.color = piece.color)
    (h3 : getSq b row 3 = none)
    (h1 : getSq b row 1 = none)
    (hatt : isSquareUnderAttack
        (setSq (setSq b row 2 (some piece)) row 4 none) row 2 piece.color.opposite = false) :
    isSquareUnderAttack
      (setSq (setSq
          (setSq (setSq b row 2 (some kp)) row 4 none)
          row 3 (some rp)) row 0 none)
      row 2 piece.color.opposite = false := by
  set opp := piece.color.opposite with hopp
  set B2 := setSq (setSq b row 2 (some piece)) row 4 none with hB2
  set B1 := setSq (setSq
      (setSq (setSq b row 2 (some kp)) row 4 none)
      row 3 (some rp)) row 0 none with hB1
  have hB1_3 : getSq B1 row 3 = some rp := by
    rw [hB1, getSq_setSq_other _ _ (by simp), getSq_setSq_same _ _ (by omega)]
  have hB1_0 : getSq B1 row 0 = none := by
    rw [hB1, getSq_setSq_same _ _ (by omega)]
  have hB1_1 : getSq B1 row 1 = getSq b row 1 := by
    rw [hB1, getSq_setSq_other _ _ (by omega), getSq_setSq_other _ _ (by omega),
      getSq_setSq_other _ _ (by omega), getSq_setSq_other _ _ (by omega)]
  have hB1_off : ∀ x y, x ≠ row → getSq B1 x y = getSq b x y := by
    intro x y hx
    rw [hB1, getSq_setSq_other _ _ (by tauto), getSq_setSq_other _ _ (by tauto),
      getSq_setSq_other _ _ (by tauto), getSq_setSq_other _ _ (by tauto)]
  have hB2_off : ∀ x y, x ≠ row → getSq B2 x y = getSq b x y := by
    intro x y hx
    rw [hB2, getSq_setSq_other _ _ (by tauto), getSq_setSq_other _ _ (by tauto)]
  have hoffrow : ∀ x y, x ≠ row → cellView B1 opp x y = cellView B2 opp x y := by
    intro x y hx
    unfold cellView
    rw [hB1_off x y hx, hB2_off x y hx]
  rw [attack_false_iff] at hatt ⊢
  obtain ⟨hpawn, hknight, hslide, hkadj⟩ := hatt
  refine ⟨?_, ?_, ?_, ?_⟩
  · rw [pawnAttackCheck_congr_offrow hoffrow]
    exact hpawn
  · rw [knightAttackCheck_congr_offrow hoffrow]
    exact hknight
  · rw [slide_false_iff] at hslide ⊢
    intro d hd
    have hd8 : d = (-1, -1) ∨ d = (-1, 0) ∨ d = (-1, 1) ∨ d = (0, -1) ∨ d = (0, 1) ∨
        d = (1, -1) ∨ d = (1, 0) ∨ d = (1, 1) := by
      simpa [allDirections] using hd
    have hup : ∀ dc : Int, rayGo B1 opp (-1) dc 8 (row + (-1)) (2 + dc) =
        rayGo B2 opp (-1) dc 8 (row + (-1)) (2 + dc) := by
      intro dc
      exact rayGo_congr_region (fun x _ => x < row) (fun r c h => by omega)
        (fun x y h => hoffrow x y (by omega)) 8 (row + (-1)) (2 + dc) (by omega)
    have hdown : ∀ dc : Int, rayGo B1 opp 1 dc 8 (row + 1) (2 + dc) =
        rayGo B2 opp 1 dc 8 (row + 1) (2 + dc) := by
      intro dc
      exact rayGo_congr_region (fun x _ => row < x) (fun r c h => by omega)
        (fun x y h => hoffrow x y (by omega)) 8 (row + 1) (2 + dc) (by omega)
    rcases hd8 with rfl | rfl | rfl | rfl | rfl | rfl | rfl | rfl
    · rw [hup]; exact hslide (-1, -1) (by simp [allDirections])
    · rw [hup]; exact hslide (-1, 0) (by simp [allDirections])
    · rw [hup]; exact hslide (-1, 1) (by simp [allDirections])
    · -- west ray: `(row, 1)` is empty, the corner has been vacated, then off board
      show rayGo B1 opp 0 (-1) 8 (row + 0) (2 + -1) = false
      rw [add_zero, show (2 : Int) + -1 = 1 by norm_num]
      rw [show (8 : Nat) = 7 + 1 from rfl, rayGo_succ]
      rw [if_pos (by simp only [inBounds]; simp; omega)]
      rw [hB1_1, h1]
      simp only [add_zero]
      rw [show (1 : Int) + -1 = 0 by norm_num]
      rw [show (7 : Nat) = 6 + 1 from rfl, rayGo_succ]
      rw [if_pos (by simp only [inBounds]; simp; omega)]
      rw [hB1_0]
      simp only [add_zero]
      rw [show (0 : Int) + -1 = -1 by norm_num]
      rw [show (6 : Nat) = 5 + 1 from rfl, rayGo_succ]
      rw [if_neg (by simp [inBounds])]
    · -- east ray: blocked at (row, 3) by the freshly moved friendly rook
      show rayGo B1 opp 0 1 8 (row + 0) (2 + 1) = false
      rw [add_zero, show (2 : Int) + 1 = 3 by norm_num]
      rw [show (8 : Nat) = 7 + 1 from rfl, rayGo_succ]
      rw [if_pos (by simp only [inBounds]; simp; omega)]
      rw [hB1_3]
      simp only []
      rw [hrpc, hopp, Color.beq_opposite]
      simp
    · rw [hdown]; exact hslide (1, -1) (by simp [allDirections])
    · rw [hdown]; exact hslide (1, 0) (by simp [allDirections])
    · rw [hdown]; exact hslide (1, 1) (by simp [allDirections])
  · rw [kingAdjAttackCheck_congr_row hoffrow ?_ ?_]
    · exact hkadj
    · -- (row, 1): empty on both boards
      unfold pieceIs
      rw [show (2 : Int) + -1 = 1 by norm_num, hB1_1, h1]
      rw [show getSq B2 row 1 = none by
        rw [hB2, getSq_setSq_other _ _ (by omega), getSq_setSq_other _ _ (by omega)]; exact h1]
    · -- (row, 3): friendly-colored piece vs empty — neither is an opposing king
      unfold pieceIs
      rw [show (2 : Int) + 1 = 3 by norm_num, hB1_3]
      rw [show getSq B2 row 3 = none by
        rw [hB2, getSq_setSq_other _ _ (by omega), getSq_setSq_other _ _ (by omega)]; exact h3]
      simp [hrpc, hopp, Color.beq_opposite]

theorem mem_getValidMoves_elim {b : Board} {row col : Int} {piece : ChessPiece}
    {m : ChessMove} (hp : getSq b row col = some piece) (h : m ∈ getValidMoves b row col) :
    m ∈ pseudoMoves b row col piece ∧ wouldBeInCheck b m piece.color = false := by
  unfold getValidMoves at h
  rw [hp] at h
  simp only [] at h
  rw [List.mem_filter] at h
  exact ⟨h.1, by simpa using h.2⟩

theorem mem_pseudoMoves_nonCastle {b : Board} {row col : Int} {piece : ChessPiece}
    {m : ChessMove} (h : m ∈ pseudoMoves b row col piece) (hnc : m.isCastle = none) :
    m.fromSq = ⟨row, col⟩ ∧ m.isEnPassant = false ∧
      (m.promotion = none ∨
        (m.promotion = some .queen ∧ piece.type = .pawn ∧ m.toSq.row ≠ row)) := by
  unfold pseudoMoves at h
  cases hpt : piece.type <;> rw [hpt] at h
  case pawn =>
    obtain ⟨hfrom, _, hep, hto, hpromo⟩ := mem_getPawnMoves_shape h
    refine ⟨hfrom, hep, ?_⟩
    by_cases hrow : m.toSq.row = (if piece.color == Color.white then (0 : Int) else 7)
    · right
      rw [if_pos hrow] at hpromo
      exact ⟨hpromo, rfl, hto⟩
    · left
      rw [if_neg hrow] at hpromo
      exact hpromo
  case knight =>
    obtain ⟨hfrom, _, hep, hpromo⟩ := mem_getKnightMoves_shape h
    exact ⟨hfrom, hep, Or.inl hpromo⟩
  case bishop =>
    obtain ⟨hfrom, _, hep, hpromo⟩ := mem_getSlidingMoves_shape h
    exact ⟨hfrom, hep, Or.inl hpromo⟩
  case rook =>
    obtain ⟨hfrom, _, hep, hpromo⟩ := mem_getSlidingMoves_shape h
    exact ⟨hfrom, hep, Or.inl hpromo⟩
  case queen =>
    obtain ⟨hfrom, _, hep, hpromo⟩ := mem_getSlidingMoves_shape h
    exact ⟨hfrom, hep, Or.inl hpromo⟩
  case king =>
    rcases mem_getKingMoves_cases h with hreg | ⟨_, _, _, hcst⟩
    · obtain ⟨hfrom, _, hep, hpromo⟩ := mem_kingRegularMoves_shape hreg
      exact ⟨hfrom, hep, Or.inl hpromo⟩
    · rcases hcst with hks | hqs
      · obtain ⟨hmeq, -⟩ := mem_kingsideCastleMoves_inv hks
        rw [hmeq] at hnc
        exact absurd hnc (by simp)
      · obtain ⟨hmeq, -⟩ := mem_queensideCastleMoves_inv hqs
        rw [hmeq] at hnc
        exact absurd hnc (by simp)

theorem mem_pseudoMoves_kingside {b : Board} {row col : Int} {piece : ChessPiece}
    {m : ChessMove} (h : m ∈ pseudoMoves b row col piece)
    (hc : m.isCastle = some .kingside) :
    piece.type = .king ∧ piece.hasMoved = false ∧ isInCheck b piece.color = false ∧
      col = 4 ∧
      m = { fromSq := ⟨row, col⟩, toSq := ⟨row, col + 2⟩, isCastle := some .kingside } ∧
      ∃ rook, getSq b row 7 = some rook ∧ rook.type = .rook ∧
        rook.color = piece.color ∧ rook.hasMoved = false ∧
        getSq b row 5 = none ∧ getSq b row 6 = none ∧
        kingStepAttacked b row col piece row 5 = false ∧
        kingStepAttacked b row col piece row 6 = false := by
  unfold pseudoMoves at h
  cases hpt : piece.type <;> rw [hpt] at h
  case pawn =>
    obtain ⟨-, hcn, -⟩ := mem_getPawnMoves_shape h
    rw [hcn] at hc
    exact absurd hc (by simp)
  case knight =>
    obtain ⟨-, hcn, -⟩ := mem_getKnightMoves_shape h
    rw [hcn] at hc
    exact absurd hc (by simp)
  case bishop =>
    obtain ⟨-, hcn, -⟩ := mem_getSlidingMoves_shape h
    rw [hcn] at hc
    exact absurd hc (by simp)
  case rook =>
    obtain ⟨-, hcn, -⟩ := mem_getSlidingMoves_shape h
    rw [hcn] at hc
    exact absurd hc (by simp)
  case queen =>
    obtain ⟨-, hcn, -⟩ := mem_getSlidingMoves_shape h
    rw [hcn] at hc
    exact absurd hc (by simp)
  case king =>
    rcases mem_getKingMoves_cases h with hreg | ⟨hmv, hchk, hcol, hcst⟩
    · obtain ⟨-, hcn, -⟩ := mem_kingRegularMoves_shape hreg
      rw [hcn] at hc
      exact absurd hc (by simp)
    · rcases hcst with hks | hqs
      · obtain ⟨hmeq, hrest⟩ := mem_kingsideCastleMoves_inv hks
        exact ⟨rfl, hmv, hchk, hcol, hmeq, hrest⟩
      · obtain ⟨hmeq, -⟩ := mem_queensideCastleMoves_inv hqs
        rw [hmeq] at hc
        simp at hc

theorem mem_pseudoMoves_queenside {b : Board} {row col : Int} {piece : ChessPiece}
    {m : ChessMove} (h : m ∈ pseudoMoves b row col piece)
    (hc : m.isCastle = some .queenside) :
    piece.type = .king ∧ piece.hasMoved = false ∧ isInCheck b piece.color = false ∧
      col = 4 ∧
      m = { fromSq := ⟨row, col⟩, toSq := ⟨row, col - 2⟩, isCastle := some .queenside } ∧
      ∃ rook, getSq b row 0 = some rook ∧ rook.type = .rook ∧
        rook.color = piece.color ∧ rook.hasMoved = false ∧
        getSq b row 3 = none ∧ getSq b row 2 = none ∧ getSq b row 1 = none ∧
        kingStepAttacked b row col piece row 3 = false ∧
        kingStepAttacked b row col piece row 2 = false := by
  unfold pseudoMoves at h
  cases hpt : piece.type <;> rw [hpt] at h
  case pawn =>
    obtain ⟨-, hcn, -⟩ := mem_getPawnMoves_shape h
    rw [hcn] at hc
    exact absurd hc (by simp)
  case knight =>
    obtain ⟨-, hcn, -⟩ := mem_getKnightMoves_shape h
    rw [hcn] at hc
    exact absurd hc (by simp)
  case bishop =>
    obtain ⟨-, hcn, -⟩ := mem_getSlidingMoves_shape h
    rw [hcn] at hc
    exact absurd hc (by simp)
  case rook =>
    obtain ⟨-, hcn, -⟩ := mem_getSlidingMoves_shape h
    rw [hcn] at hc
    exact absurd hc (by simp)
  case queen =>
    obtain ⟨-, hcn, -⟩ := mem_getSlidingMoves_shape h
    rw [hcn] at hc
    exact absurd hc (by simp)
  case king =>
    rcases mem_getKingMoves_cases h with hreg | ⟨hmv, hchk, hcol, hcst⟩
    · obtain ⟨-, hcn, -⟩ := mem_kingRegularMoves_shape hreg
      rw [hcn] at hc
      exact absurd hc (by simp)
    · rcases hcst with hks | hqs
      · obtain ⟨hmeq, -⟩ := mem_kingsideCastleMoves_inv hks
        rw [hmeq] at hc
        simp at hc
      · obtain ⟨hmeq, hrest⟩ := mem_queensideCastleMoves_inv hqs
        exact ⟨rfl, hmv, hchk, hcol, hmeq, hrest⟩

/-- For a non-castle, non-en-passant move, the board `makeMove` builds and
the board `wouldBeInCheck` tested agree on everything `isInCheck` of the
mover's color can observe (`hasMoved` flags and a non-king promotion of a
non-king mover are invisible to it). -/
theorem isInCheck_makeMove_eq_wouldBe {b : Board} {m : ChessMove} {piece : ChessPiece}
    {nb : Board}
    (hp : getSq b m.fromSq.row m.fromSq.col = some piece)
    (hnc : m.isCastle = none) (hep : m.isEnPassant = false)
    (hpromo : m.promotion = none ∨
      (m.promotion = some .queen ∧ piece.type = .pawn ∧ m.toSq.row ≠ m.fromSq.row))
    (hnb : (makeMove b m).newBoard = some nb) :
    isInCheck nb piece.color = wouldBeInCheck b m piece.color := by
  have hwb : wouldBeInCheck b m piece.color =
      isInCheck (setSq (setSq b m.toSq.row m.toSq.col (some piece))
        m.fromSq.row m.fromSq.col none) piece.color := by
    unfold wouldBeInCheck
    rw [hnc, hep, hp]
    rfl
  rw [hwb]
  unfold makeMove at hnb
  rw [hp] at hnb
  simp only [hnc, hep, Option.isSome_none, Bool.false_eq_true, if_false] at hnb
  set FB := setSq (setSq b m.toSq.row m.toSq.col (some piece))
    m.fromSq.row m.fromSq.col none with hFB
  set CORE := setSq (setSq b m.toSq.row m.toSq.col (some { piece with hasMoved := true }))
    m.fromSq.row m.fromSq.col none with hCORE
  rcases hpromo with hpn | ⟨hpq, hptype, hrows⟩
  · rw [hpn] at hnb
    simp only [] at hnb
    have hnbeq : nb = CORE := (Option.some.inj hnb).symm
    subst hnbeq
    refine isInCheck_congr (fun x y => ?_) (fun x y => ?_)
    · unfold kingView pieceIs
      rw [hCORE, hFB, getSq_setSq, getSq_setSq, getSq_setSq, getSq_setSq]
      by_cases hf : x = m.fromSq.row ∧ y = m.fromSq.col
      · simp [hf]
      · rw [if_neg hf, if_neg hf]
        by_cases ht : x = m.toSq.row ∧ y = m.toSq.col
        · rw [if_pos ht, if_pos ht]
          by_cases hbd : 0 ≤ x ∧ x < 8 ∧ 0 ≤ y ∧ y < 8
          · rw [if_pos hbd, if_pos hbd]
          · rw [if_neg hbd, if_neg hbd]
        · rw [if_neg ht, if_neg ht]
    · unfold cellView
      rw [hCORE, hFB, getSq_setSq, getSq_setSq, getSq_setSq, getSq_setSq]
      by_cases hf : x = m.fromSq.row ∧ y = m.fromSq.col
      · simp [hf]
      · rw [if_neg hf, if_neg hf]
        by_cases ht : x = m.toSq.row ∧ y = m.toSq.col
        · rw [if_pos ht, if_pos ht]
          by_cases hbd : 0 ≤ x ∧ x < 8 ∧ 0 ≤ y ∧ y < 8
          · rw [if_pos hbd, if_pos hbd]
            simp
          · rw [if_neg hbd, if_neg hbd]
        · rw [if_neg ht, if_neg ht]
  · rw [hpq] at hnb
    simp only [] at hnb
    have hnbeq : nb = setSq CORE m.toSq.row m.toSq.col
        (some { type := .queen, color := piece.color, hasMoved := true }) :=
      (Option.some.inj hnb).symm
    subst hnbeq
    have hft : ¬(m.toSq.row = m.fromSq.row ∧ m.toSq.col = m.fromSq.col) := by tauto
    refine isInCheck_congr (fun x y => ?_) (fun x y => ?_)
    · unfold kingView pieceIs
      rw [hFB, getSq_setSq, hCORE, getSq_setSq, getSq_setSq, getSq_setSq, getSq_setSq]
      by_cases ht : x = m.toSq.row ∧ y = m.toSq.col
      · have hf : ¬(x = m.fromSq.row ∧ y = m.fromSq.col) := by
          rintro ⟨h1, h2⟩
          exact hft ⟨by omega, by omega⟩
        rw [if_pos ht, if_neg hf, if_pos ht]
        by_cases hbd : 0 ≤ x ∧ x < 8 ∧ 0 ≤ y ∧ y < 8
        · rw [if_pos hbd, if_pos hbd]
          simp [hptype]
        · rw [if_neg hbd, if_neg hbd]
      · simp only [if_neg ht]
    · unfold cellView
      rw [hFB, getSq_setSq, hCORE, getSq_setSq, getSq_setSq, getSq_setSq, getSq_setSq]
      by_cases ht : x = m.toSq.row ∧ y = m.toSq.col
      · have hf : ¬(x = m.fromSq.row ∧ y = m.fromSq.col) := by
          rintro ⟨h1, h2⟩
          exact hft ⟨by omega, by omega⟩
        rw [if_pos ht, if_neg hf, if_pos ht]
        by_cases hbd : 0 ≤ x ∧ x < 8 ∧ 0 ≤ y ∧ y < 8
        · rw [if_pos hbd, if_pos hbd]
          simp [Color.ne_opposite piece.color]
        · rw [if_neg hbd, if_neg hbd]
      · simp only [if_neg ht]

theorem C1_castle_kingside_aux {b : Board} {row : Int} {piece rook : ChessPiece} {nb : Board}
    (hp : getSq b row 4 = some piece)
    (hkt : piece.type = .king)
    (hkings : kingCount b piece.color ≤ 1)
    (hrook7 : getSq b row 7 = some rook) (hrt : rook.type = .rook)
    (hrc : rook.color = piece.color)
    (h5 : getSq b row 5 = none) (h6 : getSq b row 6 = none)
    (ha6 : kingStepAttacked b row 4 piece row 6 = false)
    (hnb : (makeMove b
      { fromSq := ⟨row, 4⟩, toSq := ⟨row, 6⟩, isCastle := some CastleSide.kingside }).newBoard =
      some nb) :
    isInCheck nb piece.color = false := by
  have hbnd := getSq_eq_some_bounds hp
  have hking4 : pieceIs b row 4 .king piece.color = true := by
    unfold pieceIs
    rw [hp]
    simp [hkt]
  have hkc1 : kingCount b piece.color = 1 :=
    le_antisymm hkings (kingCount_pos hking4)
  have hRB : nb = setSq (setSq
      (setSq (setSq b row 6 (some { piece with hasMoved := true })) row 4 none)
      row 5 (some { rook with hasMoved := true })) row 7 none := by
    unfold makeMove at hnb
    rw [hp] at hnb
    unfold handleCastle at hnb
    simp only [Option.isSome_some, beq_self_eq_true, eq_self_iff_true, if_true,
      Bool.false_eq_true, if_false] at hnb
    rw [show ((6 : Int) - 1) = 5 by norm_num] at hnb
    rw [getSq_setSq_other _ _ (by omega), getSq_setSq_other _ _ (by omega), hrook7] at hnb
    simp only [Option.map_some'] at hnb
    exact (Option.some.inj hnb).symm
  subst hRB
  set RB := setSq (setSq
      (setSq (setSq b row 6 (some { piece with hasMoved := true })) row 4 none)
      row 5 (some { rook with hasMoved := true })) row 7 none with hRBdef
  have hRB6 : getSq RB row 6 = some { piece with hasMoved := true } := by
    rw [hRBdef, getSq_setSq_other _ _ (by omega), getSq_setSq_other _ _ (by omega),
      getSq_setSq_other _ _ (by omega), getSq_setSq_same _ _ (by omega)]
  have hfind : findKing RB piece.color = some ⟨row, 6⟩ := by
    refine find?_eq_some_of_unique (mem_squaresRowMajor.2
      (by show 0 ≤ row ∧ row < 8 ∧ (0 : Int) ≤ 6 ∧ (6 : Int) < 8; omega)) ?_ ?_
    · unfold pieceIs
      rw [hRB6]
      simp [hkt]
    · rintro ⟨sr, sc⟩ hs hps
      simp only [] at hps
      by_cases h7c : sr = row ∧ sc = 7
      · exfalso
        unfold pieceIs at hps
        rw [h7c.1, h7c.2, hRBdef, getSq_setSq_same _ _ (by omega)] at hps
        exact Bool.noConfusion hps
      · by_cases h5c : sr = row ∧ sc = 5
        · exfalso
          unfold pieceIs at hps
          rw [h5c.1, h5c.2, hRBdef, getSq_setSq_other _ _ (by omega),
            getSq_setSq_same _ _ (by omega)] at hps
          simp [hrt] at hps
        · by_cases h4c : sr = row ∧ sc = 4
          · exfalso
            unfold pieceIs at hps
            rw [h4c.1, h4c.2, hRBdef, getSq_setSq_other _ _ (by omega),
              getSq_setSq_other _ _ (by omega), getSq_setSq_same _ _ (by omega)] at hps
            exact Bool.noConfusion hps
          · by_cases h6c : sr = row ∧ sc = 6
            · simp [h6c.1, h6c.2]
            · exfalso
              unfold pieceIs at hps
              rw [hRBdef, getSq_setSq_other _ _ (by tauto),
                getSq_setSq_other _ _ (by tauto), getSq_setSq_other _ _ (by tauto),
                getSq_setSq_other _ _ (by tauto)] at hps
              obtain ⟨hr4, hc4⟩ := kingCount_unique hkc1 hking4 sr sc hps
              exact h4c ⟨hr4, hc4⟩
  unfold isInCheck
  rw [hfind]
  simp only []
  unfold kingStepAttacked at ha6
  exact castle_result_safe_kingside ⟨hbnd.1, hbnd.2.1⟩ hrook7 hrc
    (show ({ rook with hasMoved := true } : ChessPiece).color = piece.color from hrc) h5 ha6

theorem C1_castle_queenside_aux {b : Board} {row : Int} {piece rook : ChessPiece} {nb : Board}
    (hp : getSq b row 4 = some piece)
    (hkt : piece.type = .king)
    (hkings : kingCount b piece.color ≤ 1)
    (hrook0 : getSq b row 0 = some rook) (hrt : rook.type = .rook)
    (hrc : rook.color = piece.color)
    (h3 : getSq b row 3 = none) (h1 : getSq b row 1 = none)
    (ha2 : kingStepAttacked b row 4 piece row 2 = false)
    (hnb : (makeMove b
      { fromSq := ⟨row, 4⟩, toSq := ⟨row, 2⟩, isCastle := some CastleSide.queenside }).newBoard =
      some nb) :
    isInCheck nb piece.color = false := by
  have hbnd := getSq_eq_some_bounds hp
  have hking4 : pieceIs b row 4 .king piece.color = true := by
    unfold pieceIs
    rw [hp]
    simp [hkt]
  have hkc1 : kingCount b piece.color = 1 :=
    le_antisymm hkings (kingCount_pos hking4)
  have hRB : nb = setSq (setSq
      (setSq (setSq b row 2 (some { piece with hasMoved := true })) row 4 none)
      row 3 (some { rook with hasMoved := true })) row 0 none := by
    unfold makeMove at hnb
    rw [hp] at hnb
    unfold handleCastle at hnb
    rw [show ((some CastleSide.queenside == some CastleSide.kingside)) = false from rfl] at hnb
    simp only [Option.isSome_some, beq_self_eq_true, eq_self_iff_true, if_true,
      Bool.false_eq_true, if_false] at hnb
    rw [show ((2 : Int) + 1) = 3 by norm_num] at hnb
    rw [getSq_setSq_other _ _ (by omega), getSq_setSq_other _ _ (by omega), hrook0] at hnb
    simp only [Option.map_some'] at hnb
    exact (Option.some.inj hnb).symm
  subst hRB
  set RB := setSq (setSq
      (setSq (setSq b row 2 (some { piece with hasMoved := true })) row 4 none)
      row 3 (some { rook with hasMoved := true })) row 0 none with hRBdef
  have hRB2 : getSq RB row 2 = some { piece with hasMoved := true } := by
    rw [hRBdef, getSq_setSq_other _ _ (by omega), getSq_setSq_other _ _ (by omega),
      getSq_setSq_other _ _ (by omega), getSq_setSq_same _ _ (by omega)]
  have hfind : findKing RB piece.color = some ⟨row, 2⟩ := by
    refine find?_eq_some_of_unique (mem_squaresRowMajor.2
      (by show 0 ≤ row ∧ row < 8 ∧ (0 : Int) ≤ 2 ∧ (2 : Int) < 8; omega)) ?_ ?_
    · unfold pieceIs
      rw [hRB2]
      simp [hkt]
    · rintro ⟨sr, sc⟩ hs hps
      simp only [] at hps
      by_cases h0c : sr = row ∧ sc = 0
      · exfalso
        unfold pieceIs at hps
        rw [h0c.1, h0c.2, hRBdef, getSq_setSq_same _ _ (by omega)] at hps
        exact Bool.noConfusion hps
      · by_cases h3c : sr = row ∧ sc = 3
        · exfalso
          unfold pieceIs at hps
          rw [h3c.1, h3c.2, hRBdef, getSq_setSq_other _ _ (by omega),
            getSq_setSq_same _ _ (by omega)] at hps
          simp [hrt] at hps
        · by_cases h4c : sr = row ∧ sc = 4
          · exfalso
            unfold pieceIs at hps
            rw [h4c.1, h4c.2, hRBdef, getSq_setSq_other _ _ (by omega),
              getSq_setSq_other _ _ (by omega), getSq_setSq_same _ _ (by omega)] at hps
            exact Bool.noConfusion hps
          · by_cases h2c : sr = row ∧ sc = 2
            · simp [h2c.1, h2c.2]
            · exfalso
              unfold pieceIs at hps
              rw [hRBdef, getSq_setSq_other _ _ (by tauto),
                getSq_setSq_other _ _ (by tauto), getSq_setSq_other _ _ (by tauto),
                getSq_setSq_other _ _ (by tauto)] at hps
              obtain ⟨hr4, hc4⟩ := kingCount_unique hkc1 hking4 sr sc hps
              exact h4c ⟨hr4, hc4⟩
  unfold isInCheck
  rw [hfind]
  simp only []
  unfold kingStepAttacked at ha2
  exact castle_result_safe_queenside ⟨hbnd.1, hbnd.2.1⟩ hrc
    (show ({ rook with hasMoved := true } : ChessPiece).color = piece.color from hrc) h3 h1 ha2

/-- Claim C1 (amended): on any board holding at most one king of the moving
piece's color, every move returned by `getValidMoves` yields, when applied
by `makeMove`, a board on which the mover's color is not in check. -/
theorem C1_legal_moves_safe (b : Board) (row col : Int) (piece : ChessPiece)
    (m : ChessMove) (nb : Board)
    (hp : getSq b row col = some piece)
    (hkings : kingCount b piece.color ≤ 1)
    (hm : m ∈ getValidMoves b row col)
    (hnb : (makeMove b m).newBoard = some nb) :
    isInCheck nb piece.color = false := by
  obtain ⟨hpm, hfilter⟩ := mem_getValidMoves_elim hp hm
  cases hcastle : m.isCastle with
  | none =>
    obtain ⟨hfrom, hep, hpromo⟩ := mem_pseudoMoves_nonCastle hpm hcastle
    have hp2 : getSq b m.fromSq.row m.fromSq.col = some piece := by
      rw [hfrom]
      exact hp
    have hpromo2 : m.promotion = none ∨
        (m.promotion = some PieceType.queen ∧ piece.type = PieceType.pawn ∧
          m.toSq.row ≠ m.fromSq.row) := by
      rcases hpromo with h | ⟨h1, h2, h3⟩
      · exact Or.inl h
      · refine Or.inr ⟨h1, h2, ?_⟩
        rw [hfrom]
        exact h3
    rw [isInCheck_makeMove_eq_wouldBe hp2 hcastle hep hpromo2 hnb]
    exact hfilter
  | some side =>
    cases side
    case kingside =>
      obtain ⟨hkt, -, -, hcol, hmeq, rook, hrook7, hrt, hrc, -, h5, h6, -, ha6⟩ :=
        mem_pseudoMoves_kingside hpm hcastle
      subst hcol
      rw [show (4 : Int) + 2 = 6 by norm_num] at hmeq
      rw [hmeq] at hnb
      exact C1_castle_kingside_aux hp hkt hkings hrook7 hrt hrc h5 h6 ha6 hnb
    case queenside =>
      obtain ⟨hkt, -, -, hcol, hmeq, rook, hrook0, hrt, hrc, -, h3, h2sq, h1sq, -, ha2⟩ :=
        mem_pseudoMoves_queenside hpm hcastle
      subst hcol
      rw [show (4 : Int) - 2 = 2 by norm_num] at hmeq
      rw [hmeq] at hnb
      exact C1_castle_queenside_aux hp hkt hkings hrook0 hrt hrc h3 h1sq ha2 hnb

/-- Claim C1, counterexample to the unrestricted statement: on
`twoKingBoard` (two white kings), the kingside castle from `(2, 4)` is
returned by `getValidMoves`, yet applying it with `makeMove` leaves white
in check: `wouldBeInCheck` moved the rook of row 7 during filtering while
`makeMove` moves the rook of row 2, uncovering the h-file rook check
against the white king on `(0, 7)`. -/
theorem C1_counterexample :
    offRankCastleMove ∈ getValidMoves twoKingBoard 2 4 ∧
      ((makeMove twoKingBoard offRankCastleMove).newBoard.map
        fun nb => isInCheck nb Color.white) = some true := by
  constructor
  · decide
  · decide

/-- Witness for `C1_legal_moves_safe` at a concrete input: the pawn
advance e2–e4 from the initial position. -/
theorem C1_legal_moves_safe_witness :
    isInCheck ((makeMove initialBoard e2e4Move).newBoard.getD emptyBoard) Color.white =
      false :=
  C1_legal_moves_safe initialBoard 6 4 ⟨.pawn, .white, false⟩ e2e4Move
    ((makeMove initialBoard e2e4Move).newBoard.getD emptyBoard)
    (by decide) (by decide) (by decide) rfl

/-- Claim C2: the source checks the squares diagonally in *front* of the
target (from the attacker's advance) instead of behind it.  A white pawn on
`(3, 2)` — which attacks `(2, 3)` in chess, as the claim states — is not
reported; a black pawn on `(1, 2)` — the claim's black case — is not
reported either; and a white pawn on `(1, 2)`, which attacks nothing on
`(2, 3)`, is reported as an attacker. -/
theorem C2_pawn_attack_direction :
    isSquareUnderAttack c2PawnBehindWhite 2 3 Color.white = false ∧
      isSquareUnderAttack c2PawnBehindBlack 2 3 Color.black = false ∧
      isSquareUnderAttack c2PawnFrontWhite 2 3 Color.white = true := by
  refine ⟨?_, ?_, ?_⟩ <;> decide

/-- Claim C3: `makeMove` returns `valid = false` with the human-readable
reason and no board exactly when the source square is empty, and otherwise
returns `valid = true` with a new board and every derived flag, never
failing, whatever the move. -/
theorem C3_makeMove_validity (b : Board) (m : ChessMove) :
    (getSq b m.fromSq.row m.fromSq.col = none →
      (makeMove b m).valid = false ∧
        (makeMove b m).error = some "No piece at the source position" ∧
        (makeMove b m).newBoard = none) ∧
    (∀ p, getSq b m.fromSq.row m.fromSq.col = some p →
      (makeMove b m).valid = true ∧ (makeMove b m).error = none ∧
        (makeMove b m).newBoard.isSome = true ∧ (makeMove b m).move = some m ∧
        (makeMove b m).isCheckmate.isSome = true ∧
        (makeMove b m).isStalemate.isSome = true ∧
        (makeMove b m).isDraw.isSome = true) := by
  constructor
  · intro h
    unfold makeMove
    rw [h]
    exact ⟨rfl, rfl, rfl⟩
  · intro p h
    unfold makeMove
    rw [h]
    exact ⟨rfl, rfl, rfl, rfl, rfl, rfl, rfl⟩

/-- Witness for `C3_makeMove_validity`: an empty source square on the empty
board, and the e2 pawn on the initial position. -/
theorem C3_makeMove_validity_witness :
    ((makeMove emptyBoard e2e4Move).valid = false ∧
      (makeMove emptyBoard e2e4Move).error = some "No piece at the source position" ∧
      (makeMove emptyBoard e2e4Move).newBoard = none) ∧
    ((makeMove initialBoard e2e4Move).valid = true ∧
      (makeMove initialBoard e2e4Move).error = none ∧
      (makeMove initialBoard e2e4Move).newBoard.isSome = true ∧
      (makeMove initialBoard e2e4Move).move = some e2e4Move ∧
      (makeMove initialBoard e2e4Move).isCheckmate.isSome = true ∧
      (makeMove initialBoard e2e4Move).isStalemate.isSome = true ∧
      (makeMove initialBoard e2e4Move).isDraw.isSome = true) :=
  ⟨(C3_makeMove_validity emptyBoard e2e4Move).1 (by decide),
    (C3_makeMove_validity initialBoard e2e4Move).2 ⟨.pawn, .white, false⟩ (by decide)⟩

/-- Expected `getValidMoves` list length per piece type on the standard
initial position: the claim as amended — pawns and knights have 2 moves,
all other pieces 0. -/
def expectedInitialCount : PieceType → Nat
  | .pawn => 2
  | .knight => 2
  | _ => 0

/-- Claim C4, counterexample: the knight on `(7, 1)` of the initial
position has 2 legal moves (knights jump over the pawn rank), not the 0 the
claim asserts for every non-pawn. -/
theorem C4_counterexample :
    ((getValidMoves initialBoard 7 1).length == 0) = false ∧
      (getValidMoves initialBoard 7 1).length = 2 ∧
      getSq initialBoard 7 1 = some ⟨.knight, .white, false⟩ := by
  refine ⟨?_, ?_, ?_⟩ <;> decide

/-- Claim C4 (amended): on the standard initial position every pawn has
exactly 2 legal moves, every knight exactly 2, and every other piece
exactly 0 (empty squares yield the empty list). -/
theorem C4_initial_position_moves :
    (squaresRowMajor.all fun s =>
      match getSq initialBoard s.row s.col with
      | some p => (getValidMoves initialBoard s.row s.col).length == expectedInitialCount p.type
      | none => (getValidMoves initialBoard s.row s.col).isEmpty) = true := by
  decide

/-- Claim C7, counterexample: `makeMove` applies no default promotion — a
white pawn pushed from `(1, 4)` to the far rank with no `promotion` field
remains a pawn on the new board (the claim says it should become a queen). -/
theorem C7_counterexample :
    (((makeMove c7PawnBoard c7BarePush).newBoard.map fun nb => getSq nb 0 4) ==
        some (some ⟨.queen, .white, true⟩)) = false ∧
      ((makeMove c7PawnBoard c7BarePush).newBoard.map fun nb => getSq nb 0 4) =
        some (some ⟨.pawn, .white, true⟩) := by
  constructor <;> decide

theorem getSq_handleCastle_offrow (B : Board) (mv : ChessMove) {x y : Int}
    (hx : x ≠ mv.fromSq.row) : getSq (handleCastle B mv) x y = getSq B x y := by
  unfold handleCastle
  rw [getSq_setSq_other _ _ (by tauto), getSq_setSq_other _ _ (by tauto)]

theorem getSq_handleEnPassant_offrow (B : Board) (mv : ChessMove) {x y : Int}
    (hx : x ≠ mv.fromSq.row) : getSq (handleEnPassant B mv) x y = getSq B x y := by
  unfold handleEnPassant
  rw [getSq_setSq_other _ _ (by tauto)]

/-- Claim C7 (amended): `makeMove` places the piece type carried by the
move's `promotion` field, and when the move specifies no promotion it
places the moved piece unchanged — a pawn reaching the far rank stays a
pawn.  The queen default the claim describes lives in `getValidMoves`'s
pawn generator, which tags every far-rank pawn move with
`promotion = queen` before `makeMove` ever runs. -/
theorem C7_promotion_application (b : Board) (m : ChessMove) (p : ChessPiece)
    (hp : getSq b m.fromSq.row m.fromSq.col = some p)
    (hrow : m.fromSq.row ≠ m.toSq.row)
    (hb : 0 ≤ m.toSq.row ∧ m.toSq.row < 8 ∧ 0 ≤ m.toSq.col ∧ m.toSq.col < 8) :
    (∀ pt, m.promotion = some pt →
      ((makeMove b m).newBoard.map fun nb => getSq nb m.toSq.row m.toSq.col) =
        some (some ⟨pt, p.color, true⟩)) ∧
    (m.promotion = none →
      ((makeMove b m).newBoard.map fun nb => getSq nb m.toSq.row m.toSq.col) =
        some (some { p with hasMoved := true })) ∧
    (∀ q row col, getSq b row col = some q → q.type = .pawn →
      m ∈ getValidMoves b row col →
      m.toSq.row = (if q.color == .white then (0 : Int) else 7) →
      m.promotion = some .queen) := by
  refine ⟨?_, ?_, ?_⟩
  · intro pt hpt
    unfold makeMove
    rw [hp, hpt]
    simp only [Option.map_some']
    rw [getSq_setSq_same _ _ hb]
  · intro hpn
    unfold makeMove
    rw [hp, hpn]
    simp only [Option.map_some']
    by_cases hcs : m.isCastle.isSome = true <;> by_cases hen : m.isEnPassant = true <;>
      simp only [hcs, hen, if_true, if_false, Bool.false_eq_true] <;>
      first
      | (rw [getSq_handleEnPassant_offrow _ _ (by omega),
          getSq_handleCastle_offrow _ _ (by omega),
          getSq_setSq_other _ _ (by omega), getSq_setSq_same _ _ hb])
      | (rw [getSq_handleEnPassant_offrow _ _ (by omega),
          getSq_setSq_other _ _ (by omega), getSq_setSq_same _ _ hb])
      | (rw [getSq_handleCastle_offrow _ _ (by omega),
          getSq_setSq_other _ _ (by omega), getSq_setSq_same _ _ hb])
      | (rw [getSq_setSq_other _ _ (by omega), getSq_setSq_same _ _ hb])
  · intro q row col hq hqt hmv hfar
    obtain ⟨hpm, -⟩ := mem_getValidMoves_elim hq hmv
    unfold pseudoMoves at hpm
    rw [hqt] at hpm
    obtain ⟨-, -, -, -, hpromo⟩ := mem_getPawnMoves_shape hpm
    rw [hpromo, if_pos hfar]

/-- A far-rank pawn push that carries the queen promotion field. -/
def c7QueenPush : ChessMove :=
  { fromSq := ⟨1, 4⟩, toSq := ⟨0, 4⟩, promotion := some .queen }

/-- Witness for `C7_promotion_application`: the tagged push promotes to a
queen on the new board. -/
theorem C7_promotion_application_witness :
    ((makeMove c7PawnBoard c7QueenPush).newBoard.map fun nb => getSq nb 0 4) =
      some (some ⟨.queen, .white, true⟩) :=
  (C7_promotion_application c7PawnBoard c7QueenPush ⟨.pawn, .white, false⟩
    (by decide) (by decide) (by decide)).1 .queen rfl

/-- Claim C9: `isCheckmate` and `isStalemate` are never both true (one
requires being in check, the other requires not), and consequently no
`MoveResult` carries both flags. -/
theorem C9_checkmate_stalemate_exclusive (b : Board) (c : Color) (m : ChessMove) :
    (isCheckmate b c && isStalemate b c) = false ∧
      ((makeMove b m).isCheckmate.getD false && (makeMove b m).isStalemate.getD false) =
        false := by
  constructor
  · unfold isCheckmate isStalemate
    cases h : isInCheck b c <;> simp
  · unfold makeMove
    cases hq : getSq b m.fromSq.row m.fromSq.col
    · rfl
    · simp only []
      cases h : isInCheck _ _ <;> simp [isCheckmate, isStalemate, h]

/-- Claim C10: a successful `makeMove` reports check only for the opponent
of the piece that moved — the `inCheck` field is absent or holds the
opposite color. -/
theorem C10_inCheck_opponent_only (b : Board) (m : ChessMove) (p : ChessPiece)
    (hp : getSq b m.fromSq.row m.fromSq.col = some p) :
    (makeMove b m).inCheck = none ∨
      (makeMove b m).inCheck = some p.color.opposite := by
  unfold makeMove
  rw [hp]
  simp only []
  cases h : isInCheck _ p.color.opposite
  · left
    simp [h]
  · right
    simp [h]

/-- Witness for `C10_inCheck_opponent_only` at the opening pawn push. -/
theorem C10_inCheck_opponent_only_witness :
    (makeMove initialBoard e2e4Move).inCheck = none ∨
      (makeMove initialBoard e2e4Move).inCheck =
        some (ChessPiece.color ⟨.pawn, .white, false⟩).opposite :=
  C10_inCheck_opponent_only initialBoard e2e4Move ⟨.pawn, .white, false⟩ (by decide)

/-- Putting the castling king on the empty transit square `(row, 5)` and
vacating `(row, 4)` cannot create an attack on `(row, 5)` that was not
already an attack on `(row, 5)` or on the king's own square `(row, 4)`. -/
theorem castle_transit_safe_k5 {b : Board} {row : Int} {piece kingp rookp : ChessPiece}
    (hrow : 0 ≤ row ∧ row < 8)
    (hk4 : getSq b row 4 = some kingp) (hkc : kingp.color = piece.color)
    (hrook : getSq b row 7 = some rookp) (hrpc : rookp.color = piece.color)
    (he6 : getSq b row 6 = none)
    (hs5 : isSquareUnderAttack b row 5 piece.color.opposite = false)
    (hc4 : isSquareUnderAttack b row 4 piece.color.opposite = false) :
    isSquareUnderAttack (setSq (setSq b row 5 (some piece)) row 4 none) row 5
      piece.color.opposite = false := by
  set opp := piece.color.opposite with hopp
  set T := setSq (setSq b row 5 (some piece)) row 4 none with hT
  have hT_off : ∀ x y, x ≠ row → getSq T x y = getSq b x y := by
    intro x y hx
    rw [hT, getSq_setSq_other _ _ (by tauto), getSq_setSq_other _ _ (by tauto)]
  have hoffrow : ∀ x y, x ≠ row → cellView T opp x y = cellView b opp x y := by
    intro x y hx
    unfold cellView
    rw [hT_off x y hx]
  have hT4 : getSq T row 4 = none := by
    rw [hT, getSq_setSq_same _ _ (by omega)]
  have hT6 : getSq T row 6 = none := by
    rw [hT, getSq_setSq_other _ _ (by omega), getSq_setSq_other _ _ (by omega)]
    exact he6
  have hT7 : getSq T row 7 = some rookp := by
    rw [hT, getSq_setSq_other _ _ (by omega), getSq_setSq_other _ _ (by omega)]
    exact hrook
  rw [attack_false_iff] at hs5 hc4 ⊢
  obtain ⟨hp5, hn5, hsl5, hka5⟩ := hs5
  obtain ⟨-, -, hsl4, -⟩ := hc4
  refine ⟨?_, ?_, ?_, ?_⟩
  · rw [pawnAttackCheck_congr_offrow hoffrow]
    exact hp5
  · rw [knightAttackCheck_congr_offrow hoffrow]
    exact hn5
  · rw [slide_false_iff] at hsl5 hsl4 ⊢
    intro d hd
    have hd8 : d = (-1, -1) ∨ d = (-1, 0) ∨ d = (-1, 1) ∨ d = (0, -1) ∨ d = (0, 1) ∨
        d = (1, -1) ∨ d = (1, 0) ∨ d = (1, 1) := by
      simpa [allDirections] using hd
    have hup : ∀ dc : Int, rayGo T opp (-1) dc 8 (row + (-1)) (5 + dc) =
        rayGo b opp (-1) dc 8 (row + (-1)) (5 + dc) := by
      intro dc
      exact rayGo_congr_region (fun x _ => x < row) (fun r c h => by omega)
        (fun x y h => hoffrow x y (by omega)) 8 (row + (-1)) (5 + dc) (by omega)
    have hdown : ∀ dc : Int, rayGo T opp 1 dc 8 (row + 1) (5 + dc) =
        rayGo b opp 1 dc 8 (row + 1) (5 + dc) := by
      intro dc
      exact rayGo_congr_region (fun x _ => row < x) (fun r c h => by omega)
        (fun x y h => hoffrow x y (by omega)) 8 (row + 1) (5 + dc) (by omega)
    rcases hd8 with rfl | rfl | rfl | rfl | rfl | rfl | rfl | rfl
    · rw [hup]; exact hsl5 (-1, -1) (by simp [allDirections])
    · rw [hup]; exact hsl5 (-1, 0) (by simp [allDirections])
    · rw [hup]; exact hsl5 (-1, 1) (by simp [allDirections])
    · -- west: over the vacated king square, then as seen from `(row, 4)`
      show rayGo T opp 0 (-1) 8 (row + 0) (5 + -1) = false
      rw [add_zero, show (5 : Int) + -1 = 4 by norm_num]
      rw [show (8 : Nat) = 7 + 1 from rfl, rayGo_succ]
      rw [if_pos (by simp only [inBounds]; simp; omega)]
      rw [hT4]
      simp only [add_zero]
      rw [show (4 : Int) + -1 = 3 by norm_num]
      have hcongr : rayGo T opp 0 (-1) 7 row 3 = rayGo b opp 0 (-1) 7 row 3 :=
        rayGo_congr_region (fun _ y => y < 4) (fun r c h => by omega)
          (fun x y h => by unfold cellView; rw [hT, getSq_setSq_other _ _ (by omega),
            getSq_setSq_other _ _ (by omega)]) 7 row 3 (by omega)
      rw [hcongr, rayGo_fuel_west 7 8 3 (by norm_num) (by norm_num)]
      have := hsl4 (0, -1) (by simp [allDirections])
      simpa using this
    · -- east: `(row, 6)` is empty, `(row, 7)` holds the friendly rook
      show rayGo T opp 0 1 8 (row + 0) (5 + 1) = false
      rw [add_zero, show (5 : Int) + 1 = 6 by norm_num]
      rw [show (8 : Nat) = 7 + 1 from rfl, rayGo_succ]
      rw [if_pos (by simp only [inBounds]; simp; omega)]
      rw [hT6]
      simp only [add_zero]
      rw [show (6 : Int) + 1 = 7 by norm_num]
      rw [show (7 : Nat) = 6 + 1 from rfl, rayGo_succ]
      rw [if_pos (by simp only [inBounds]; simp; omega)]
      rw [hT7]
      simp only []
      rw [hrpc, hopp, Color.beq_opposite]
      simp
    · rw [hdown]; exact hsl5 (1, -1) (by simp [allDirections])
    · rw [hdown]; exact hsl5 (1, 0) (by simp [allDirections])
    · rw [hdown]; exact hsl5 (1, 1) (by simp [allDirections])
  · rw [kingAdjAttackCheck_congr_row hoffrow ?_ ?_]
    · exact hka5
    · -- (row, 4): vacated vs the friendly king
      unfold pieceIs
      rw [show (5 : Int) + -1 = 4 by norm_num, hT4, hk4]
      simp [hkc, hopp, Color.beq_opposite]
    · -- (row, 6): empty on both boards
      unfold pieceIs
      rw [show (5 : Int) + 1 = 6 by norm_num, hT6, he6]

/-- Transit safety for the kingside destination `(row, 6)`. -/
theorem castle_transit_safe_k6 {b : Board} {row : Int} {piece kingp rookp : ChessPiece}
    (hrow : 0 ≤ row ∧ row < 8)
    (hk4 : getSq b row 4 = some kingp) (hkc : kingp.color = piece.color)
    (hrook : getSq b row 7 = some rookp) (hrpc : rookp.color = piece.color)
    (he5 : getSq b row 5 = none)
    (hs6 : isSquareUnderAttack b row 6 piece.color.opposite = false)
    (hc4 : isSquareUnderAttack b row 4 piece.color.opposite = false) :
    isSquareUnderAttack (setSq (setSq b row 6 (some piece)) row 4 none) row 6
      piece.color.opposite = false := by
  set opp := piece.color.opposite with hopp
  set T := setSq (setSq b row 6 (some piece)) row 4 none with hT
  have hT_off : ∀ x y, x ≠ row → getSq T x y = getSq b x y := by
    intro x y hx
    rw [hT, getSq_setSq_other _ _ (by tauto), getSq_setSq_other _ _ (by tauto)]
  have hoffrow : ∀ x y, x ≠ row → cellView T opp x y = cellView b opp x y := by
    intro x y hx
    unfold cellView
    rw [hT_off x y hx]
  have hT4 : getSq T row 4 = none := by
    rw [hT, getSq_setSq_same _ _ (by omega)]
  have hT5 : getSq T row 5 = none := by
    rw [hT, getSq_setSq_other _ _ (by omega), getSq_setSq_other _ _ (by omega)]
    exact he5
  have hT7 : getSq T row 7 = some rookp := by
    rw [hT, getSq_setSq_other _ _ (by omega), getSq_setSq_other _ _ (by omega)]
    exact hrook
  rw [attack_false_iff] at hs6 hc4 ⊢
  obtain ⟨hp6, hn6, hsl6, hka6⟩ := hs6
  obtain ⟨-, -, hsl4, -⟩ := hc4
  refine ⟨?_, ?_, ?_, ?_⟩
  · rw [pawnAttackCheck_congr_offrow hoffrow]
    exact hp6
  · rw [knightAttackCheck_congr_offrow hoffrow]
    exact hn6
  · rw [slide_false_iff] at hsl6 hsl4 ⊢
    intro d hd
    have hd8 : d = (-1, -1) ∨ d = (-1, 0) ∨ d = (-1, 1) ∨ d = (0, -1) ∨ d = (0, 1) ∨
        d = (1, -1) ∨ d = (1, 0) ∨ d = (1, 1) := by
      simpa [allDirections] using hd
    have hup : ∀ dc : Int, rayGo T opp (-1) dc 8 (row + (-1)) (6 + dc) =
        rayGo b opp (-1) dc 8 (row + (-1)) (6 + dc) := by
      intro dc
      exact rayGo_congr_region (fun x _ => x < row) (fun r c h => by omega)
        (fun x y h => hoffrow x y (by omega)) 8 (row + (-1)) (6 + dc) (by omega)
    have hdown : ∀ dc : Int, rayGo T opp 1 dc 8 (row + 1) (6 + dc) =
        rayGo b opp 1 dc 8 (row + 1) (6 + dc) := by
      intro dc
      exact rayGo_congr_region (fun x _ => row < x) (fun r c h => by omega)
        (fun x y h => hoffrow x y (by omega)) 8 (row + 1) (6 + dc) (by omega)
    rcases hd8 with rfl | rfl | rfl | rfl | rfl | rfl | rfl | rfl
    · rw [hup]; exact hsl6 (-1, -1) (by simp [allDirections])
    · rw [hup]; exact hsl6 (-1, 0) (by simp [allDirections])
    · rw [hup]; exact hsl6 (-1, 1) (by simp [allDirections])
    · -- west: over the empty `(row, 5)` and the vacated king square
      show rayGo T opp 0 (-1) 8 (row + 0) (6 + -1) = false
      rw [add_zero, show (6 : Int) + -1 = 5 by norm_num]
      rw [show (8 : Nat) = 7 + 1 from rfl, rayGo_succ]
      rw [if_pos (by simp only [inBounds]; simp; omega)]
      rw [hT5]
      simp only [add_zero]
      rw [show (5 : Int) + -1 = 4 by norm_num]
      rw [show (7 : Nat) = 6 + 1 from rfl, rayGo_succ]
      rw [if_pos (by simp only [inBounds]; simp; omega)]
      rw [hT4]
      simp only [add_zero]
      rw [show (4 : Int) + -1 = 3 by norm_num]
      have hcongr : rayGo T opp 0 (-1) 6 row 3 = rayGo b opp 0 (-1) 6 row 3 :=
        rayGo_congr_region (fun _ y => y < 4) (fun r c h => by omega)
          (fun x y h => by unfold cellView; rw [hT, getSq_setSq_other _ _ (by omega),
            getSq_setSq_other _ _ (by omega)]) 6 row 3 (by omega)
      rw [hcongr, rayGo_fuel_west 6 8 3 (by norm_num) (by norm_num)]
      have := hsl4 (0, -1) (by simp [allDirections])
      simpa using this
    · -- east: `(row, 7)` holds the friendly rook
      show rayGo T opp 0 1 8 (row + 0) (6 + 1) = false
      rw [add_zero, show (6 : Int) + 1 = 7 by norm_num]
      rw [show (8 : Nat) = 7 + 1 from rfl, rayGo_succ]
      rw [if_pos (by simp only [inBounds]; simp; omega)]
      rw [hT7]
      simp only []
      rw [hrpc, hopp, Color.beq_opposite]
      simp
    · rw [hdown]; exact hsl6 (1, -1) (by simp [allDirections])
    · rw [hdown]; exact hsl6 (1, 0) (by simp [allDirections])
    · rw [hdown]; exact hsl6 (1, 1) (by simp [allDirections])
  · rw [kingAdjAttackCheck_congr_row hoffrow ?_ ?_]
    · exact hka6
    · -- (row, 5): empty on both boards
      unfold pieceIs
      rw [show (6 : Int) + -1 = 5 by norm_num, hT5, he5]
    · -- (row, 7): the friendly rook on both boards
      unfold pieceIs
      rw [show (6 : Int) + 1 = 7 by norm_num, hT7, hrook]

/-- Transit safety for the queenside square `(row, 3)`. -/
theorem castle_transit_safe_q3 {b : Board} {row : Int} {piece kingp rookp : ChessPiece}
    (hrow : 0 ≤ row ∧ row < 8)
    (hk4 : getSq b row 4 = some kingp) (hkc : kingp.color = piece.color)
    (hrook : getSq b row 0 = some rookp) (hrpc : rookp.color = piece.color)
    (he2 : getSq b row 2 = none) (he1 : getSq b row 1 = none)
    (hs3 : isSquareUnderAttack b row 3 piece.color.opposite = false)
    (hc4 : isSquareUnderAttack b row 4 piece.color.opposite = false) :
    isSquareUnderAttack (setSq (setSq b row 3 (some piece)) row 4 none) row 3
      piece.color.opposite = false := by
  set opp := piece.color.opposite with hopp
  set T := setSq (setSq b row 3 (some piece)) row 4 none with hT
  have hT_off : ∀ x y, x ≠ row → getSq T x y = getSq b x y := by
    intro x y hx
    rw [hT, getSq_setSq_other _ _ (by tauto), getSq_setSq_other _ _ (by tauto)]
  have hoffrow : ∀ x y, x ≠ row → cellView T opp x y = cellView b opp x y := by
    intro x y hx
    unfold cellView
    rw [hT_off x y hx]
  have hT4 : getSq T row 4 = none := by
    rw [hT, getSq_setSq_same _ _ (by omega)]
  have hT2 : getSq T row 2 = none := by
    rw [hT, getSq_setSq_other _ _ (by omega), getSq_setSq_other _ _ (by omega)]
    exact he2
  have hT1 : getSq T row 1 = none := by
    rw [hT, getSq_setSq_other _ _ (by omega), getSq_setSq_other _ _ (by omega)]
    exact he1
  have hT0 : getSq T row 0 = some rookp := by
    rw [hT, getSq_setSq_other _ _ (by omega), getSq_setSq_other _ _ (by omega)]
    exact hrook
  rw [attack_false_iff] at hs3 hc4 ⊢
  obtain ⟨hp3, hn3, hsl3, hka3⟩ := hs3
  obtain ⟨-, -, hsl4, -⟩ := hc4
  refine ⟨?_, ?_, ?_, ?_⟩
  · rw [pawnAttackCheck_congr_offrow hoffrow]
    exact hp3
  · rw [knightAttackCheck_congr_offrow hoffrow]
    exact hn3
  · rw [slide_false_iff] at hsl3 hsl4 ⊢
    intro d hd
    have hd8 : d = (-1, -1) ∨ d = (-1, 0) ∨ d = (-1, 1) ∨ d = (0, -1) ∨ d = (0, 1) ∨
        d = (1, -1) ∨ d = (1, 0) ∨ d = (1, 1) := by
      simpa [allDirections] using hd
    have hup : ∀ dc : Int, rayGo T opp (-1) dc 8 (row + (-1)) (3 + dc) =
        rayGo b opp (-1) dc 8 (row + (-1)) (3 + dc) := by
      intro dc
      exact rayGo_congr_region (fun x _ => x < row) (fun r c h => by omega)
        (fun x y h => hoffrow x y (by omega)) 8 (row + (-1)) (3 + dc) (by omega)
    have hdown : ∀ dc : Int, rayGo T opp 1 dc 8 (row + 1) (3 + dc) =
        rayGo b opp 1 dc 8 (row + 1) (3 + dc) := by
      intro dc
      exact rayGo_congr_region (fun x _ => row < x) (fun r c h => by omega)
        (fun x y h => hoffrow x y (by omega)) 8 (row + 1) (3 + dc) (by omega)
    rcases hd8 with rfl | rfl | rfl | rfl | rfl | rfl | rfl | rfl
    · rw [hup]; exact hsl3 (-1, -1) (by simp [allDirections])
    · rw [hup]; exact hsl3 (-1, 0) (by simp [allDirections])
    · rw [hup]; exact hsl3 (-1, 1) (by simp [allDirections])
    · -- west: empty `(row, 2)` and `(row, 1)`, then the friendly rook
      show rayGo T opp 0 (-1) 8 (row + 0) (3 + -1) = false
      rw [add_zero, show (3 : Int) + -1 = 2 by norm_num]
      rw [show (8 : Nat) = 7 + 1 from rfl, rayGo_succ]
      rw [if_pos (by simp only [inBounds]; simp; omega)]
      rw [hT2]
      simp only [add_zero]
      rw [show (2 : Int) + -1 = 1 by norm_num]
      rw [show (7 : Nat) = 6 + 1 from rfl, rayGo_succ]
      rw [if_pos (by simp only [inBounds]; simp; omega)]
      rw [hT1]
      simp only [add_zero]
      rw [show (1 : Int) + -1 = 0 by norm_num]
      rw [show (6 : Nat) = 5 + 1 from rfl, rayGo_succ]
      rw [if_pos (by simp only [inBounds]; simp; omega)]
      rw [hT0]
      simp only []
      rw [hrpc, hopp, Color.beq_opposite]
      simp
    · -- east: over the vacated king square, then as seen from `(row, 4)`
      show rayGo T opp 0 1 8 (row + 0) (3 + 1) = false
      rw [add_zero, show (3 : Int) + 1 = 4 by norm_num]
      rw [show (8 : Nat) = 7 + 1 from rfl, rayGo_succ]
      rw [if_pos (by simp only [inBounds]; simp; omega)]
      rw [hT4]
      simp only [add_zero]
      rw [show (4 : Int) + 1 = 5 by norm_num]
      have hcongr : rayGo T opp 0 1 7 row 5 = rayGo b opp 0 1 7 row 5 :=
        rayGo_congr_region (fun _ y => 4 < y) (fun r c h => by omega)
          (fun x y h => by unfold cellView; rw [hT, getSq_setSq_other _ _ (by omega),
            getSq_setSq_other _ _ (by omega)]) 7 row 5 (by omega)
      rw [hcongr, rayGo_fuel_east 7 8 5 (by norm_num) (by norm_num)]
      have := hsl4 (0, 1) (by simp [allDirections])
      simpa using this
    · rw [hdown]; exact hsl3 (1, -1) (by simp [allDirections])
    · rw [hdown]; exact hsl3 (1, 0) (by simp [allDirections])
    · rw [hdown]; exact hsl3 (1, 1) (by simp [allDirections])
  · rw [kingAdjAttackCheck_congr_row hoffrow ?_ ?_]
    · exact hka3
    · -- (row, 2): empty on both boards
      unfold pieceIs
      rw [show (3 : Int) + -1 = 2 by norm_num, hT2, he2]
    · -- (row, 4): vacated vs the friendly king
      unfold pieceIs
      rw [show (3 : Int) + 1 = 4 by norm_num, hT4, hk4]
      simp [hkc, hopp, Color.beq_opposite]

/-- Transit safety for the queenside destination `(row, 2)`. -/
theorem castle_transit_safe_q2 {b : Board} {row : Int} {piece kingp rookp : ChessPiece}
    (hrow : 0 ≤ row ∧ row < 8)
    (hk4 : getSq b row 4 = some kingp) (hkc : kingp.color = piece.color)
    (hrook : getSq b row 0 = some rookp) (hrpc : rookp.color = piece.color)
    (he3 : getSq b row 3 = none) (he1 : getSq b row 1 = none)
    (hs2 : isSquareUnderAttack b row 2 piece.color.opposite = false)
    (hc4 : isSquareUnderAttack b row 4 piece.color.opposite = false) :
    isSquareUnderAttack (setSq (setSq b row 2 (some piece)) row 4 none) row 2
      piece.color.opposite = false := by
  set opp := piece.color.opposite with hopp
  set T := setSq (setSq b row 2 (some piece)) row 4 none with hT
  have hT_off : ∀ x y, x ≠ row → getSq T x y = getSq b x y := by
    intro x y hx
    rw [hT, getSq_setSq_other _ _ (by tauto), getSq_setSq_other _ _ (by tauto)]
  have hoffrow : ∀ x y, x ≠ row → cellView T opp x y = cellView b opp x y := by
    intro x y hx
    unfold cellView
    rw [hT_off x y hx]
  have hT4 : getSq T row 4 = none := by
    rw [hT, getSq_setSq_same _ _ (by omega)]
  have hT3 : getSq T row 3 = none := by
    rw [hT, getSq_setSq_other _ _ (by omega), getSq_setSq_other _ _ (by omega)]
    exact he3
  have hT1 : getSq T row 1 = none := by
    rw [hT, getSq_setSq_other _ _ (by omega), getSq_setSq_other _ _ (by omega)]
    exact he1
  have hT0 : getSq T row 0 = some rookp := by
    rw [hT, getSq_setSq_other _ _ (by omega), getSq_setSq_other _ _ (by omega)]
    exact hrook
  rw [attack_false_iff] at hs2 hc4 ⊢
  obtain ⟨hp2, hn2, hsl2, hka2⟩ := hs2
  obtain ⟨-, -, hsl4, -⟩ := hc4
  refine ⟨?_, ?_, ?_, ?_⟩
  · rw [pawnAttackCheck_congr_offrow hoffrow]
    exact hp2
  · rw [knightAttackCheck_congr_offrow hoffrow]
    exact hn2
  · rw [slide_false_iff] at hsl2 hsl4 ⊢
    intro d hd
    have hd8 : d = (-1, -1) ∨ d = (-1, 0) ∨ d = (-1, 1) ∨ d = (0, -1) ∨ d = (0, 1) ∨
        d = (1, -1) ∨ d = (1, 0) ∨ d = (1, 1) := by
      simpa [allDirections] using hd
    have hup : ∀ dc : Int, rayGo T opp (-1) dc 8 (row + (-1)) (2 + dc) =
        rayGo b opp (-1) dc 8 (row + (-1)) (2 + dc) := by
      intro dc
      exact rayGo_congr_region (fun x _ => x < row) (fun r c h => by omega)
        (fun x y h => hoffrow x y (by omega)) 8 (row + (-1)) (2 + dc) (by omega)
    have hdown : ∀ dc : Int, rayGo T opp 1 dc 8 (row + 1) (2 + dc) =
        rayGo b opp 1 dc 8 (row + 1) (2 + dc) := by
      intro dc
      exact rayGo_congr_region (fun x _ => row < x) (fun r c h => by omega)
        (fun x y h => hoffrow x y (by omega)) 8 (row + 1) (2 + dc) (by omega)
    rcases hd8 with rfl | rfl | rfl | rfl | rfl | rfl | rfl | rfl
    · rw [hup]; exact hsl2 (-1, -1) (by simp [allDirections])
    · rw [hup]; exact hsl2 (-1, 0) (by simp [allDirections])
    · rw [hup]; exact hsl2 (-1, 1) (by simp [allDirections])
    · -- west: `(row, 1)` is empty, then the friendly rook on the corner
      show rayGo T opp 0 (-1) 8 (row + 0) (2 + -1) = false
      rw [add_zero, show (2 : Int) + -1 = 1 by norm_num]
      rw [show (8 : Nat) = 7 + 1 from rfl, rayGo_succ]
      rw [if_pos (by simp only [inBounds]; simp; omega)]
      rw [hT1]
      simp only [add_zero]
      rw [show (1 : Int) + -1 = 0 by norm_num]
      rw [show (7 : Nat) = 6 + 1 from rfl, rayGo_succ]
      rw [if_pos (by simp only [inBounds]; simp; omega)]
      rw [hT0]
      simp only []
      rw [hrpc, hopp, Color.beq_opposite]
      simp
    · -- east: empty `(row, 3)`, the vacated king square, then from `(row, 4)`
      show rayGo T opp 0 1 8 (row + 0) (2 + 1) = false
      rw [add_zero, show (2 : Int) + 1 = 3 by norm_num]
      rw [show (8 : Nat) = 7 + 1 from rfl, rayGo_succ]
      rw [if_pos (by simp only [inBounds]; simp; omega)]
      rw [hT3]
      simp only [add_zero]
      rw [show (3 : Int) + 1 = 4 by norm_num]
      rw [show (7 : Nat) = 6 + 1 from rfl, rayGo_succ]
      rw [if_pos (by simp only [inBounds]; simp; omega)]
      rw [hT4]
      simp only [add_zero]
      rw [show (4 : Int) + 1 = 5 by norm_num]
      have hcongr : rayGo T opp 0 1 6 row 5 = rayGo b opp 0 1 6 row 5 :=
        rayGo_congr_region (fun _ y => 4 < y) (fun r c h => by omega)
          (fun x y h => by unfold cellView; rw [hT, getSq_setSq_other _ _ (by omega),
            getSq_setSq_other _ _ (by omega)]) 6 row 5 (by omega)
      rw [hcongr, rayGo_fuel_east 6 8 5 (by norm_num) (by norm_num)]
      have := hsl4 (0, 1) (by simp [allDirections])
      simpa using this
    · rw [hdown]; exact hsl2 (1, -1) (by simp [allDirections])
    · rw [hdown]; exact hsl2 (1, 0) (by simp [allDirections])
    · rw [hdown]; exact hsl2 (1, 1) (by simp [allDirections])
  · rw [kingAdjAttackCheck_congr_row hoffrow ?_ ?_]
    · exact hka2
    · -- (row, 1): empty on both boards
      unfold pieceIs
      rw [show (2 : Int) + -1 = 1 by norm_num, hT1, he1]
    · -- (row, 3): empty on both boards
      unfold pieceIs
      rw [show (2 : Int) + 1 = 3 by norm_num, hT3, he3]

/-- The back rank of a color: row 7 for white, row 0 for black (the row the
hardcoded `rookRow` of `wouldBeInCheck` selects). -/
def backRank (c : Color) : Int := if c == Color.white then 7 else 0

/-- The king's destination column for each castle side. -/
def castleKingDest : CastleSide → Int
  | .kingside => 6
  | .queenside => 2

/-- The home column of the castling rook. -/
def rookHomeCol : CastleSide → Int
  | .kingside => 7
  | .queenside => 0

/-- The column the castling rook ends on — adjacent to the king on the side
it crossed. -/
def rookCastleCol : CastleSide → Int
  | .kingside => 5
  | .queenside => 3

/-- The columns strictly between king and rook. -/
def betweenCols : CastleSide → List Int
  | .kingside => [5, 6]
  | .queenside => [1, 2, 3]

/-- The columns the king transits, destination included. -/
def transitCols : CastleSide → List Int
  | .kingside => [5, 6]
  | .queenside => [3, 2]

/-- The castle move `getKingMoves` emits for a color and side. -/
def castleMoveOf (c : Color) (side : CastleSide) : ChessMove :=
  { fromSq := ⟨backRank c, 4⟩, toSq := ⟨backRank c, castleKingDest side⟩,
    isCastle := some side }

/-- Kingside generation: under the claim's preconditions the kingside
castle move passes both the transit tests and the `wouldBeInCheck`
filter, so `getValidMoves` returns it. -/
theorem C5_kingside_aux {b : Board} {row : Int} {piece rook : ChessPiece}
    (hrr : (if piece.color == Color.white then (7 : Int) else 0) = row)
    (hp : getSq b row 4 = some piece)
    (hkt : piece.type = .king) (hkm : piece.hasMoved = false)
    (hkings : kingCount b piece.color ≤ 1)
    (hrook : getSq b row 7 = some rook) (hrt : rook.type = .rook)
    (hrc : rook.color = piece.color) (hrm : rook.hasMoved = false)
    (hnc : isInCheck b piece.color = false)
    (h5 : getSq b row 5 = none) (h6 : getSq b row 6 = none)
    (ha5 : isSquareUnderAttack b row 5 piece.color.opposite = false)
    (ha6 : isSquareUnderAttack b row 6 piece.color.opposite = false) :
    ({ fromSq := ⟨row, 4⟩, toSq := ⟨row, 6⟩,
        isCastle := some CastleSide.kingside } : ChessMove) ∈ getValidMoves b row 4 := by
  have hbnd := getSq_eq_some_bounds hp
  have hking4 : pieceIs b row 4 .king piece.color = true := by
    unfold pieceIs
    rw [hp]
    simp [hkt]
  have hkc1 : kingCount b piece.color = 1 :=
    le_antisymm hkings (kingCount_pos hking4)
  have hfind : findKing b piece.color = some ⟨row, 4⟩ := findKing_of_unique hkc1 hking4
  have hc4 : isSquareUnderAttack b row 4 piece.color.opposite = false := by
    unfold isInCheck at hnc
    rw [hfind] at hnc
    exact hnc
  have hks5 : kingStepAttacked b row 4 piece row 5 = false := by
    unfold kingStepAttacked
    exact castle_transit_safe_k5 ⟨hbnd.1, hbnd.2.1⟩ hp rfl hrook hrc h6 ha5 hc4
  have hks6 : kingStepAttacked b row 4 piece row 6 = false := by
    unfold kingStepAttacked
    exact castle_transit_safe_k6 ⟨hbnd.1, hbnd.2.1⟩ hp rfl hrook hrc h5 ha6 hc4
  have hksc : kingsideCastleMoves b row 4 piece =
      [{ fromSq := ⟨row, 4⟩, toSq := ⟨row, 6⟩, isCastle := some CastleSide.kingside }] := by
    unfold kingsideCastleMoves
    rw [hrook]
    simp only [hrt, hrc, hrm, h5, h6, hks5, hks6, beq_self_eq_true, Bool.not_false,
      Bool.and_self, if_true]
    norm_num
  have hpm : ({ fromSq := ⟨row, 4⟩, toSq := ⟨row, 6⟩, isCastle := some CastleSide.kingside } : ChessMove) ∈ pseudoMoves b row 4 piece := by
    unfold pseudoMoves
    rw [hkt]
    show _ ∈ getKingMoves b row 4 piece
    unfold getKingMoves
    rw [List.mem_append]
    right
    rw [hkm, hnc, hksc]
    simp
  have hwbc : wouldBeInCheck b { fromSq := ⟨row, 4⟩, toSq := ⟨row, 6⟩, isCastle := some CastleSide.kingside } piece.color = false := by
    show isInCheck
        (setSq (setSq
            (setSq (setSq b row 6 (getSq b row 4)) row 4 none)
            (if piece.color == Color.white then (7 : Int) else 0) 5
            (getSq (setSq (setSq b row 6 (getSq b row 4)) row 4 none)
              (if piece.color == Color.white then (7 : Int) else 0) 7))
          (if piece.color == Color.white then (7 : Int) else 0) 7 none)
        piece.color = false
    rw [hrr, hp]
    rw [getSq_setSq_other _ _ (by omega), getSq_setSq_other _ _ (by omega), hrook]
    set RB := setSq (setSq
        (setSq (setSq b row 6 (some piece)) row 4 none)
        row 5 (some rook)) row 7 none with hRBdef
    have hRB6 : getSq RB row 6 = some piece := by
      rw [hRBdef, getSq_setSq_other _ _ (by omega), getSq_setSq_other _ _ (by omega),
        getSq_setSq_other _ _ (by omega), getSq_setSq_same _ _ (by omega)]
    have hfindRB : findKing RB piece.color = some ⟨row, 6⟩ := by
      refine find?_eq_some_of_unique (mem_squaresRowMajor.2
        (by show 0 ≤ row ∧ row < 8 ∧ (0 : Int) ≤ 6 ∧ (6 : Int) < 8; omega)) ?_ ?_
      · unfold pieceIs
        rw [hRB6]
        simp [hkt]
      · rintro ⟨sr, sc⟩ hs hps
        simp only [] at hps
        by_cases h7c : sr = row ∧ sc = 7
        · exfalso
          unfold pieceIs at hps
          rw [h7c.1, h7c.2, hRBdef, getSq_setSq_same _ _ (by omega)] at hps
          exact Bool.noConfusion hps
        · by_cases h5c : sr = row ∧ sc = 5
          · exfalso
            unfold pieceIs at hps
            rw [h5c.1, h5c.2, hRBdef, getSq_setSq_other _ _ (by omega),
              getSq_setSq_same _ _ (by omega)] at hps
            simp [hrt] at hps
          · by_cases h4c : sr = row ∧ sc = 4
            · exfalso
              unfold pieceIs at hps
              rw [h4c.1, h4c.2, hRBdef, getSq_setSq_other _ _ (by omega),
                getSq_setSq_other _ _ (by omega), getSq_setSq_same _ _ (by omega)] at hps
              exact Bool.noConfusion hps
            · by_cases h6c : sr = row ∧ sc = 6
              · simp [h6c.1, h6c.2]
              · exfalso
                unfold pieceIs at hps
                rw [hRBdef, getSq_setSq_other _ _ (by tauto),
                  getSq_setSq_other _ _ (by tauto), getSq_setSq_other _ _ (by tauto),
                  getSq_setSq_other _ _ (by tauto)] at hps
                obtain ⟨hr4, hc4⟩ := kingCount_unique hkc1 hking4 sr sc hps
                exact h4c ⟨hr4, hc4⟩
    unfold isInCheck
    rw [hfindRB]
    simp only []
    unfold kingStepAttacked at hks6
    exact castle_result_safe_kingside ⟨hbnd.1, hbnd.2.1⟩ hrook hrc hrc h5 hks6
  unfold getValidMoves
  rw [hp]
  simp only []
  rw [List.mem_filter]
  exact ⟨hpm, by rw [hwbc]; rfl⟩

/-- Queenside generation: under the claim's preconditions the queenside
castle move passes both the transit tests and the `wouldBeInCheck`
filter, so `getValidMoves` returns it. -/
theorem C5_queenside_aux {b : Board} {row : Int} {piece rook : ChessPiece}
    (hrr : (if piece.color == Color.white then (7 : Int) else 0) = row)
    (hp : getSq b row 4 = some piece)
    (hkt : piece.type = .king) (hkm : piece.hasMoved = false)
    (hkings : kingCount b piece.color ≤ 1)
    (hrook : getSq b row 0 = some rook) (hrt : rook.type = .rook)
    (hrc : rook.color = piece.color) (hrm : rook.hasMoved = false)
    (hnc : isInCheck b piece.color = false)
    (h1 : getSq b row 1 = none) (h2 : getSq b row 2 = none) (h3 : getSq b row 3 = none)
    (ha3 : isSquareUnderAttack b row 3 piece.color.opposite = false)
    (ha2 : isSquareUnderAttack b row 2 piece.color.opposite = false) :
    ({ fromSq := ⟨row, 4⟩, toSq := ⟨row, 2⟩, isCastle := some CastleSide.queenside } : ChessMove) ∈ getValidMoves b row 4 := by
  have hbnd := getSq_eq_some_bounds hp
  have hking4 : pieceIs b row 4 .king piece.color = true := by
    unfold pieceIs
    rw [hp]
    simp [hkt]
  have hkc1 : kingCount b piece.color = 1 :=
    le_antisymm hkings (kingCount_pos hking4)
  have hfind : findKing b piece.color = some ⟨row, 4⟩ := findKing_of_unique hkc1 hking4
  have hc4 : isSquareUnderAttack b row 4 piece.color.opposite = false := by
    unfold isInCheck at hnc
    rw [hfind] at hnc
    exact hnc
  have hks3 : kingStepAttacked b row 4 piece row 3 = false := by
    unfold kingStepAttacked
    exact castle_transit_safe_q3 ⟨hbnd.1, hbnd.2.1⟩ hp rfl hrook hrc h2 h1 ha3 hc4
  have hks2 : kingStepAttacked b row 4 piece row 2 = false := by
    unfold kingStepAttacked
    exact castle_transit_safe_q2 ⟨hbnd.1, hbnd.2.1⟩ hp rfl hrook hrc h3 h1 ha2 hc4
  have hqsc : queensideCastleMoves b row 4 piece =
      [{ fromSq := ⟨row, 4⟩, toSq := ⟨row, 2⟩, isCastle := some CastleSide.queenside }] := by
    unfold queensideCastleMoves
    rw [hrook]
    simp only [hrt, hrc, hrm, h1, h2, h3, hks3, hks2, beq_self_eq_true, Bool.not_false,
      Bool.and_self, if_true]
    norm_num
  have hpm : ({ fromSq := ⟨row, 4⟩, toSq := ⟨row, 2⟩, isCastle := some CastleSide.queenside } : ChessMove) ∈ pseudoMoves b row 4 piece := by
    unfold pseudoMoves
    rw [hkt]
    show _ ∈ getKingMoves b row 4 piece
    unfold getKingMoves
    rw [List.mem_append]
    right
    rw [hkm, hnc, hqsc]
    simp
  have hwbc : wouldBeInCheck b { fromSq := ⟨row, 4⟩, toSq := ⟨row, 2⟩, isCastle := some CastleSide.queenside } piece.color = false := by
    show isInCheck
        (setSq (setSq
            (setSq (setSq b row 2 (getSq b row 4)) row 4 none)
            (if piece.color == Color.white then (7 : Int) else 0) 3
            (getSq (setSq (setSq b row 2 (getSq b row 4)) row 4 none)
              (if piece.color == Color.white then (7 : Int) else 0) 0))
          (if piece.color == Color.white then (7 : Int) else 0) 0 none)
        piece.color = false
    rw [hrr, hp]
    rw [getSq_setSq_other _ _ (by omega), getSq_setSq_other _ _ (by omega), hrook]
    set RB := setSq (setSq
        (setSq (setSq b row 2 (some piece)) row 4 none)
        row 3 (some rook)) row 0 none with hRBdef
    have hRB2 : getSq RB row 2 = some piece := by
      rw [hRBdef, getSq_setSq_other _ _ (by omega), getSq_setSq_other _ _ (by omega),
        getSq_setSq_other _ _ (by omega), getSq_setSq_same _ _ (by omega)]
    have hfindRB : findKing RB piece.color = some ⟨row, 2⟩ := by
      refine find?_eq_some_of_unique (mem_squaresRowMajor.2
        (by show 0 ≤ row ∧ row < 8 ∧ (0 : Int) ≤ 2 ∧ (2 : Int) < 8; omega)) ?_ ?_
      · unfold pieceIs
        rw [hRB2]
        simp [hkt]
      · rintro ⟨sr, sc⟩ hs hps
        simp only [] at hps
        by_cases h0c : sr = row ∧ sc = 0
        · exfalso
          unfold pieceIs at hps
          rw [h0c.1, h0c.2, hRBdef, getSq_setSq_same _ _ (by omega)] at hps
          exact Bool.noConfusion hps
        · by_cases h3c : sr = row ∧ sc = 3
          · exfalso
            unfold pieceIs at hps
            rw [h3c.1, h3c.2, hRBdef, getSq_setSq_other _ _ (by omega),
              getSq_setSq_same _ _ (by omega)] at hps
            simp [hrt] at hps
          · by_cases h4c : sr = row ∧ sc = 4
            · exfalso
              unfold pieceIs at hps
              rw [h4c.1, h4c.2, hRBdef, getSq_setSq_other _ _ (by omega),
                getSq_setSq_other _ _ (by omega), getSq_setSq_same _ _ (by omega)] at hps
              exact Bool.noConfusion hps
            · by_cases h2c : sr = row ∧ sc = 2
              · simp [h2c.1, h2c.2]
              · exfalso
                unfold pieceIs at hps
                rw [hRBdef, getSq_setSq_other _ _ (by tauto),
                  getSq_setSq_other _ _ (by tauto), getSq_setSq_other _ _ (by tauto),
                  getSq_setSq_other _ _ (by tauto)] at hps
                obtain ⟨hr4, hc4⟩ := kingCount_unique hkc1 hking4 sr sc hps
                exact h4c ⟨hr4, hc4⟩
    unfold isInCheck
    rw [hfindRB]
    simp only []
    unfold kingStepAttacked at hks2
    exact castle_result_safe_queenside ⟨hbnd.1, hbnd.2.1⟩ hrc hrc h3 h1 hks2
  unfold getValidMoves
  rw [hp]
  simp only []
  rw [List.mem_filter]
  exact ⟨hpm, by rw [hwbc]; rfl⟩

/-- Claim C5: on a board with (at most) one king of color `c`, sitting
unmoved on column 4 of its back rank and not in check, with the side's
rook unmoved on its home corner, the squares between them empty and the
king's transit squares (destination included) not attacked by the
opponent, `getValidMoves` on the king's square returns the move flagged
with that castle side (to column 6 kingside, column 2 queenside), and
applying it via `makeMove` puts the king on its destination and the rook
adjacent on the side it crossed, both marked moved, clearing their
origin squares. -/
theorem C5_castling (b : Board) (c : Color) (side : CastleSide) (piece rook : ChessPiece)
    (hp : getSq b (backRank c) 4 = some piece)
    (hkt : piece.type = .king) (hpc : piece.color = c) (hkm : piece.hasMoved = false)
    (hkings : kingCount b c ≤ 1)
    (hrook : getSq b (backRank c) (rookHomeCol side) = some rook)
    (hrt : rook.type = .rook) (hrc : rook.color = c) (hrm : rook.hasMoved = false)
    (hnc : isInCheck b c = false)
    (hempty : ∀ x ∈ betweenCols side, getSq b (backRank c) x = none)
    (hsafe : ∀ x ∈ transitCols side, isSquareUnderAttack b (backRank c) x c.opposite = false) :
    castleMoveOf c side ∈ getValidMoves b (backRank c) 4 ∧
      ∃ nb, (makeMove b (castleMoveOf c side)).newBoard = some nb ∧
        getSq nb (backRank c) (castleKingDest side) = some ⟨.king, c, true⟩ ∧
        getSq nb (backRank c) (rookCastleCol side) = some ⟨.rook, c, true⟩ ∧
        getSq nb (backRank c) 4 = none ∧
        getSq nb (backRank c) (rookHomeCol side) = none := by
  subst hpc
  have hbnd := getSq_eq_some_bounds hp
  have hrr : (if piece.color == Color.white then (7 : Int) else 0) = backRank piece.color := rfl
  cases side with
  | kingside =>
    have h5 := hempty 5 (by simp [betweenCols])
    have h6 := hempty 6 (by simp [betweenCols])
    have ha5 := hsafe 5 (by simp [transitCols])
    have ha6 := hsafe 6 (by simp [transitCols])
    simp only [castleMoveOf, castleKingDest, rookCastleCol, rookHomeCol] at hrook ⊢
    refine ⟨C5_kingside_aux hrr hp hkt hkm hkings hrook hrt hrc hrm hnc h5 h6 ha5 ha6, ?_⟩
    refine ⟨setSq (setSq
        (setSq (setSq b (backRank piece.color) 6 (some { piece with hasMoved := true }))
          (backRank piece.color) 4 none)
        (backRank piece.color) 5 (some { rook with hasMoved := true }))
      (backRank piece.color) 7 none, ?_, ?_, ?_, ?_, ?_⟩
    · unfold makeMove
      rw [hp]
      unfold handleCastle
      simp only [Option.isSome_some, beq_self_eq_true, eq_self_iff_true, if_true,
        Bool.false_eq_true, if_false]
      rw [show ((6 : Int) - 1) = 5 by norm_num]
      rw [getSq_setSq_other _ _ (by omega), getSq_setSq_other _ _ (by omega), hrook]
      simp only [Option.map_some']
    · rw [getSq_setSq_other _ _ (by omega), getSq_setSq_other _ _ (by omega),
        getSq_setSq_other _ _ (by omega), getSq_setSq_same _ _ (by omega)]
      rw [hkt]
    · rw [getSq_setSq_other _ _ (by omega), getSq_setSq_same _ _ (by omega)]
      rw [hrt, hrc]
    · rw [getSq_setSq_other _ _ (by omega), getSq_setSq_other _ _ (by omega),
        getSq_setSq_same _ _ (by omega)]
    · rw [getSq_setSq_same _ _ (by omega)]
  | queenside =>
    have h1 := hempty 1 (by simp [betweenCols])
    have h2 := hempty 2 (by simp [betweenCols])
    have h3 := hempty 3 (by simp [betweenCols])
    have ha3 := hsafe 3 (by simp [transitCols])
    have ha2 := hsafe 2 (by simp [transitCols])
    simp only [castleMoveOf, castleKingDest, rookCastleCol, rookHomeCol] at hrook ⊢
    refine ⟨C5_queenside_aux hrr hp hkt hkm hkings hrook hrt hrc hrm hnc h1 h2 h3 ha3 ha2, ?_⟩
    refine ⟨setSq (setSq
        (setSq (setSq b (backRank piece.color) 2 (some { piece with hasMoved := true }))
          (backRank piece.color) 4 none)
        (backRank piece.color) 3 (some { rook with hasMoved := true }))
      (backRank piece.color) 0 none, ?_, ?_, ?_, ?_, ?_⟩
    · unfold makeMove
      rw [hp]
      unfold handleCastle
      rw [show ((some CastleSide.queenside == some CastleSide.kingside)) = false from rfl]
      simp only [Option.isSome_some, beq_self_eq_true, eq_self_iff_true, if_true,
        Bool.false_eq_true, if_false]
      rw [show ((2 : Int) + 1) = 3 by norm_num]
      rw [getSq_setSq_other _ _ (by omega), getSq_setSq_other _ _ (by omega), hrook]
      simp only [Option.map_some']
    · rw [getSq_setSq_other _ _ (by omega), getSq_setSq_other _ _ (by omega),
        getSq_setSq_other _ _ (by omega), getSq_setSq_same _ _ (by omega)]
      rw [hkt]
    · rw [getSq_setSq_other _ _ (by omega), getSq_setSq_same _ _ (by omega)]
      rw [hrt, hrc]
    · rw [getSq_setSq_other _ _ (by omega), getSq_setSq_other _ _ (by omega),
        getSq_setSq_same _ _ (by omega)]
    · rw [getSq_setSq_same _ _ (by omega)]

/-- Witness for `C5_castling` at a concrete input: white castles kingside
on `castleReadyBoard`. -/
theorem C5_castling_witness :
    castleMoveOf Color.white CastleSide.kingside ∈
        getValidMoves castleReadyBoard (backRank Color.white) 4 ∧
      ∃ nb, (makeMove castleReadyBoard
          (castleMoveOf Color.white CastleSide.kingside)).newBoard = some nb ∧
        getSq nb (backRank Color.white) (castleKingDest CastleSide.kingside) =
          some ⟨.king, Color.white, true⟩ ∧
        getSq nb (backRank Color.white) (rookCastleCol CastleSide.kingside) =
          some ⟨.rook, Color.white, true⟩ ∧
        getSq nb (backRank Color.white) 4 = none ∧
        getSq nb (backRank Color.white) (rookHomeCol CastleSide.kingside) = none :=
  C5_castling castleReadyBoard Color.white CastleSide.kingside
    ⟨.king, .white, false⟩ ⟨.rook, .white, false⟩
    (by decide) rfl rfl rfl (by decide) (by decide) rfl rfl rfl
    (by decide) (by decide) (by decide)

/-- The claim's material description, written from the spec's words over
the per-color piece collections: king versus king; king plus exactly one
bishop or knight versus a lone king; or king plus one bishop versus king
plus one bishop (bishop square colors ignored). -/
def insufficientMaterialSpec (b : Board) : Bool :=
  ((piecesOf b Color.white).length == 1 && (piecesOf b Color.black).length == 1) ||
  ((piecesOf b Color.white).length == 2 &&
    (((piecesOf b Color.white).filter fun p => p.type == PieceType.bishop).length == 1 ||
      ((piecesOf b Color.white).filter fun p => p.type == PieceType.knight).length == 1) &&
    (piecesOf b Color.black).length == 1) ||
  ((piecesOf b Color.white).length == 1 && (piecesOf b Color.black).length == 2 &&
    (((piecesOf b Color.black).filter fun p => p.type == PieceType.bishop).length == 1 ||
      ((piecesOf b Color.black).filter fun p => p.type == PieceType.knight).length == 1)) ||
  ((piecesOf b Color.white).length == 2 &&
    ((piecesOf b Color.white).filter fun p => p.type == PieceType.bishop).length == 1 &&
    (piecesOf b Color.black).length == 2 &&
    ((piecesOf b Color.black).filter fun p => p.type == PieceType.bishop).length == 1)

theorem filter_king_filterMap (b : Board) (c : Color) : ∀ l : List ChessSquare,
    ((l.filterMap fun s => match getSq b s.row s.col with
        | some p => if p.color == c then some p else none
        | none => none).filter fun p => p.type == PieceType.king).length =
      (l.filter fun s => pieceIs b s.row s.col PieceType.king c).length := by
  intro l
  induction l with
  | nil => rfl
  | cons a t ih =>
    cases hq : getSq b a.row a.col with
    | none =>
      simpa [pieceIs, hq] using ih
    | some p =>
      by_cases hcol : p.color = c
      · by_cases htyp : p.type = PieceType.king
        · simpa [pieceIs, hq, hcol, htyp] using ih
        · simpa [pieceIs, hq, hcol, htyp] using ih
      · simpa [pieceIs, hq, hcol] using ih

theorem kingCount_eq_filter_piecesOf (b : Board) (c : Color) :
    ((piecesOf b c).filter fun p => p.type == PieceType.king).length = kingCount b c := by
  unfold piecesOf kingCount
  exact filter_king_filterMap b c squaresRowMajor

theorem two_one_king {l : List ChessPiece} (hlen : l.length = 2)
    (hk : (l.filter fun p => p.type == PieceType.king).length = 1) :
    ∃ k x, k.type = PieceType.king ∧ ¬x.type = PieceType.king ∧
      (l = [k, x] ∨ l = [x, k]) := by
  obtain ⟨a, b, rfl⟩ := List.length_eq_two.1 hlen
  by_cases ha : a.type = PieceType.king
  · by_cases hb : b.type = PieceType.king
    · exfalso
      simp [ha, hb] at hk
    · exact ⟨a, b, ha, hb, Or.inl rfl⟩
  · by_cases hb : b.type = PieceType.king
    · exact ⟨b, a, hb, ha, Or.inr rfl⟩
    · exfalso
      simp [ha, hb] at hk

/-- Claim C6: on every board with exactly one king per color,
`isDrawByInsufficientMaterial` answers exactly the claim's material
description: king vs king, king plus one bishop or knight vs lone king,
or king plus bishop vs king plus bishop; everything else is not a draw. -/
theorem C6_insufficient_material (b : Board)
    (hkw : kingCount b Color.white = 1) (hkb : kingCount b Color.black = 1) :
    isDrawByInsufficientMaterial b = insufficientMaterialSpec b := by
  have hw : ((piecesOf b Color.white).filter fun p => p.type == PieceType.king).length = 1 := by
    rw [kingCount_eq_filter_piecesOf]
    exact hkw
  have hbk : ((piecesOf b Color.black).filter fun p => p.type == PieceType.king).length = 1 := by
    rw [kingCount_eq_filter_piecesOf]
    exact hkb
  unfold isDrawByInsufficientMaterial insufficientMaterialSpec
  by_cases hw1 : (piecesOf b Color.white).length = 1
  · by_cases hb1 : (piecesOf b Color.black).length = 1
    · simp [hw1, hb1]
    · by_cases hb2 : (piecesOf b Color.black).length = 2
      · obtain ⟨k, x, hktk, hxt, hor⟩ := two_one_king hb2 hbk
        have hgt : ¬(piecesOf b Color.white).length > (piecesOf b Color.black).length := by
          omega
        by_cases hxb : x.type = PieceType.bishop
        · rcases hor with hbl | hbl <;> simp [hw1, hb1, hb2, hgt, hbl, hktk, hxt, hxb]
        · by_cases hxn : x.type = PieceType.knight
          · rcases hor with hbl | hbl <;>
              simp [hw1, hb1, hb2, hgt, hbl, hktk, hxt, hxb, hxn]
          · rcases hor with hbl | hbl <;>
              simp [hw1, hb1, hb2, hgt, hbl, hktk, hxt, hxb, hxn]
      · simp [hw1, hb1, hb2]
  · by_cases hw2 : (piecesOf b Color.white).length = 2
    · by_cases hb1 : (piecesOf b Color.black).length = 1
      · obtain ⟨k, x, hktk, hxt, hor⟩ := two_one_king hw2 hw
        have hgt : (piecesOf b Color.white).length > (piecesOf b Color.black).length := by
          omega
        by_cases hxb : x.type = PieceType.bishop
        · rcases hor with hwl | hwl <;> simp [hw1, hw2, hb1, hgt, hwl, hktk, hxt, hxb]
        · by_cases hxn : x.type = PieceType.knight
          · rcases hor with hwl | hwl <;>
              simp [hw1, hw2, hb1, hgt, hwl, hktk, hxt, hxb, hxn]
          · rcases hor with hwl | hwl <;>
              simp [hw1, hw2, hb1, hgt, hwl, hktk, hxt, hxb, hxn]
      · by_cases hb2 : (piecesOf b Color.black).length = 2
        · obtain ⟨k, x, hktk, hxt, hor⟩ := two_one_king hw2 hw
          obtain ⟨k2, y, hktk2, hyt, hor2⟩ := two_one_king hb2 hbk
          by_cases hxb : x.type = PieceType.bishop
          · by_cases hyb : y.type = PieceType.bishop
            · rcases hor with hwl | hwl <;> rcases hor2 with hbl | hbl <;>
                simp [hw1, hw2, hb1, hb2, hwl, hbl, hktk, hktk2, hxt, hyt, hxb, hyb]
            · rcases hor with hwl | hwl <;> rcases hor2 with hbl | hbl <;>
                simp [hw1, hw2, hb1, hb2, hwl, hbl, hktk, hktk2, hxt, hyt, hxb, hyb]
          · by_cases hyb : y.type = PieceType.bishop
            · rcases hor with hwl | hwl <;> rcases hor2 with hbl | hbl <;>
                simp [hw1, hw2, hb1, hb2, hwl, hbl, hktk, hktk2, hxt, hyt, hxb, hyb]
            · rcases hor with hwl | hwl <;> rcases hor2 with hbl | hbl <;>
                simp [hw1, hw2, hb1, hb2, hwl, hbl, hktk, hktk2, hxt, hyt, hxb, hyb]
        · simp [hw1, hw2, hb1, hb2]
    · simp [hw1, hw2]

/-- Witness for `C6_insufficient_material` at a concrete input: king and
knight against a lone king is flagged as a draw. -/
theorem C6_insufficient_material_witness :
    isDrawByInsufficientMaterial kingKnightVsKingBoard =
        insufficientMaterialSpec kingKnightVsKingBoard ∧
      insufficientMaterialSpec kingKnightVsKingBoard = true :=
  ⟨C6_insufficient_material kingKnightVsKingBoard (by decide) (by decide), by decide⟩

/-- Claim C8's file mapping: columns 0..7 to letters a..h. -/
def fileLetter : Int → String
  | 0 => "a"
  | 1 => "b"
  | 2 => "c"
  | 3 => "d"
  | 4 => "e"
  | 5 => "f"
  | 6 => "g"
  | 7 => "h"
  | _ => ""

/-- Claim C8's rank mapping: rows 0..7 to digits 8..1. -/
def rankDigit : Int → String
  | 0 => "8"
  | 1 => "7"
  | 2 => "6"
  | 3 => "5"
  | 4 => "4"
  | 5 => "3"
  | 6 => "2"
  | 7 => "1"
  | _ => ""

/-- Claim C8's promotion suffix letter: the uppercase first letter of the
promotion piece's name. -/
def promoLetter : PieceType → String
  | .pawn => "P"
  | .knight => "K"
  | .bishop => "B"
  | .rook => "R"
  | .queen => "Q"
  | .king => "K"

theorem strCharAt_file {c : Int} (h : 0 ≤ c ∧ c < 8) :
    strCharAt "abcdefgh" c = fileLetter c := by
  obtain ⟨h1, h2⟩ := h
  interval_cases c <;> decide

theorem strCharAt_rank {r : Int} (h : 0 ≤ r ∧ r < 8) :
    strCharAt "87654321" r = rankDigit r := by
  obtain ⟨h1, h2⟩ := h
  interval_cases r <;> decide

theorem promo_take_upper (pt : PieceType) :
    upperFirst (pieceTypeName pt) = promoLetter pt := by
  cases pt <;> decide

/-- Claim C8: `moveToAlgebraic` returns exactly "O-O" / "O-O-O" for
castles, and otherwise the source file and rank, the destination file and
rank, an "=" plus the uppercase first letter of the promotion piece when
present, then "+" when the check flag is set and "#" when the checkmate
flag is set. -/
theorem C8_moveToAlgebraic_string (m : ChessMove)
    (hfr : 0 ≤ m.fromSq.row ∧ m.fromSq.row < 8)
    (hfc : 0 ≤ m.fromSq.col ∧ m.fromSq.col < 8)
    (htr : 0 ≤ m.toSq.row ∧ m.toSq.row < 8)
    (htc : 0 ≤ m.toSq.col ∧ m.toSq.col < 8) :
    moveToAlgebraic m =
      match m.isCastle with
      | some CastleSide.kingside => "O-O"
      | some CastleSide.queenside => "O-O-O"
      | none =>
        fileLetter m.fromSq.col ++ rankDigit m.fromSq.row ++
          fileLetter m.toSq.col ++ rankDigit m.toSq.row ++
          (match m.promotion with
          | some pt => "=" ++ promoLetter pt
          | none => "") ++
          (if m.isCheck then "+" else "") ++
          (if m.isCheckmate then "#" else "") := by
  unfold moveToAlgebraic
  cases hc : m.isCastle with
  | some side => cases side <;> rfl
  | none =>
    simp only []
    rw [strCharAt_file hfc, strCharAt_rank hfr, strCharAt_file htc, strCharAt_rank htr]
    cases hp : m.promotion with
    | none => simp [String.append_assoc]
    | some pt =>
      simp [promo_take_upper, String.append_assoc]

/-- A queen promotion delivering checkmate, for the C8 witness. -/
def c8Move : ChessMove :=
  { fromSq := ⟨1, 4⟩, toSq := ⟨0, 4⟩, promotion := some .queen,
    isCheck := true, isCheckmate := true }

/-- Witness for `C8_moveToAlgebraic_string` at a concrete input. -/
theorem C8_moveToAlgebraic_string_witness :
    moveToAlgebraic c8Move = "e7e8=Q+#" :=
  (C8_moveToAlgebraic_string c8Move (by decide) (by decide) (by decide) (by decide)).trans
    (by decide)
